import Mathlib

/-!
Verification development for the IV Swinger 2 Arduino firmware
(IV_Swinger2.ino).  The definitions below are a shallow embedding of the
sketch's sweep machinery: the scale computer, the Voc/noise polling loop,
the Isc stabilization loop, the main sweep loop with its voltage-decrease
corrector and Manhattan-distance discard logic, and the host Config
message processor.  Arduino ints are 16 bits; machine arithmetic is
modelled with Int (and Nat for unsigned quantities), with explicit
mod-2^16 wrapping at the operations where a 16-bit overflow is possible.
-/

namespace IVSwinger2

/-! ### Compile-time constants (from the #define block of the sketch) -/

def MAX_IV_POINTS : Nat := 275
def MAX_IV_MEAS : Nat := 1000000
def VOC_POLLING_LOOPS : Nat := 400
def MIN_ISC_ADC : Int := 100
def MAX_ISC_POLL : Int := 5000
def ISC_STABLE_ADC : Int := 5
def MAX_DISCARDS : Int := 300
def MIN_VOC_ADC : Int := 10
def ASPECT_HEIGHT : Nat := 2
def ASPECT_WIDTH : Nat := 3
def CH1_1ST_WEIGHT : Int := 5
def CH1_2ND_WEIGHT : Int := 3
def TOTAL_WEIGHT : Int := CH1_1ST_WEIGHT + CH1_2ND_WEIGHT
def AVG_WEIGHT : Int := 4
def ADC_MAX : Int := 4096

/-- In the sketch the frequency-count loops are bounded by
`sizeof(adc_ch0_vals)`, which on the 16-bit AVR target is
`MAX_IV_POINTS * 2` BYTES (550), not the element count 275. -/
def SIZEOF_ADC_CH0_VALS : Nat := 550

/-! ### Arrays as total functions with pointwise update -/

/-- Pointwise array update: `adc_ch0_vals[idx] = x` etc. -/
def upd (f : Nat → Int) (idx : Nat) (x : Int) : Nat → Int :=
  fun j => if j = idx then x else f j

/-! ### compute_v_and_i_scale

The computation uses non-negative quantities only (ADC counts and aspect
ratios), so it is embedded over Nat.  All intermediate values fit in a
16-bit int on the target for the asserted domain (aspects at most 8 and
12-bit ADC counts give initial scales at most 32760). -/

/-- The bit-search loop of compute_v_and_i_scale:
`for (bit_num = 15; bit_num >= 4; bit_num--)` looking for the leftmost
set bit of `lg`; returns `(shift_amt, round_up_mask)`.  When no bit in
[4,15] is set the C variable round_up_mask is left uninitialized and
`shift_amt` stays 0; per the source comment the initial values are then
used as-is, i.e. the mask behaves as 0, which is how it is modelled. -/
def find_shift_loop (lg : Nat) : Nat → Nat × Nat
  | bn + 4 =>
    if lg &&& (1 <<< (bn + 4)) ≠ 0 then (bn + 1, 1 <<< (bn + 4 - 4))
    else find_shift_loop lg (bn + 3)
  | _ => (0, 0)

def find_shift (lg : Nat) : Nat × Nat := find_shift_loop lg 15

/-- Tail of compute_v_and_i_scale: once the shifted-and-rounded scales are
in hand, halve both (truncating) if their sum exceeds 16, then floor the
smaller at 1 (decrementing the larger from 16 to 15 if needed). -/
def scale_adjust (lg_scale sm_scale : Nat) : Nat × Nat :=
  let lg_scale2 := if lg_scale + sm_scale > 16 then lg_scale >>> 1 else lg_scale
  let sm_scale2 := if lg_scale + sm_scale > 16 then sm_scale >>> 1 else sm_scale
  let lg_scale3 := if sm_scale2 = 0 ∧ lg_scale2 = 16 then 15 else lg_scale2
  let sm_scale3 := if sm_scale2 = 0 then 1 else sm_scale2
  (lg_scale3, sm_scale3)

/-- Core of compute_v_and_i_scale after `lg`/`sm` are selected: shift both
down so the larger becomes a 4-bit value (with round-up), then adjust. -/
def scale_core (lg sm : Nat) : Nat × Nat :=
  let fs := find_shift lg
  let shift_amt := fs.1
  let round_up_mask := fs.2
  let lg_scale := if lg &&& round_up_mask ≠ 0 then (lg >>> shift_amt) + 1 else lg >>> shift_amt
  let sm_scale := if sm &&& round_up_mask ≠ 0 then (sm >>> shift_amt) + 1 else sm >>> shift_amt
  scale_adjust lg_scale sm_scale

/-- compute_v_and_i_scale(isc_adc, voc_adc, &v_scale, &i_scale);
returns `(v_scale, i_scale)`. -/
def compute_v_and_i_scale (aspect_width aspect_height isc_adc voc_adc : Nat) : Nat × Nat :=
  let initial_v_scale := aspect_width * isc_adc
  let initial_i_scale := aspect_height * voc_adc
  if initial_i_scale > initial_v_scale then
    let r := scale_core initial_i_scale initial_v_scale
    (r.2, r.1)
  else
    let r := scale_core initial_v_scale initial_i_scale
    (r.1, r.2)

/-! ### 16-bit wrap

Arduino ints are 16 bits.  `i16` reinterprets an exact integer result as
a wrapped 16-bit signed value; it is applied at the operations whose
exact result can exceed 32767 for 12-bit ADC inputs (the Manhattan
products and their sum). -/

def i16 (x : Int) : Int := (x + 32768) % 65536 - 32768

/-- min_manhattan_distance = (unsigned int)((isc_adc * i_scale) +
(voc_adc * v_scale)) / max_iv_points.  The sum is computed in 16-bit int
(possibly wrapping), reinterpreted as unsigned (mod 2^16, which undoes
the wrap), then divided by max_iv_points.  Inputs are 12-bit counts, so
the whole computation is over Nat; a non-positive max_iv_points gives 0
just as the C unsigned division by a huge converted divisor does. -/
def min_manhattan_distance (isc_adc i_scale voc_adc v_scale max_iv_points : Nat) : Nat :=
  ((isc_adc * i_scale + voc_adc * v_scale) % 65536) / max_iv_points

/-! ### Voc polling (lines 461-521 of the sketch)

The frequency-count table reuses the retained arrays: adc_ch0_vals slots
carry voltage values, adc_ch1_vals slots carry counts.  The C loop bound
is `sizeof(adc_ch0_vals)` = 550 bytes, not the element count 275. -/

/-- Scan for the slot to update: first empty slot (count 0) or first slot
holding the value.  Mirrors the inner for-loop of the frequency count. -/
def freq_scan (vals cnts : Nat → Int) (v : Int) (idx : Nat) : Option Nat :=
  if _h : idx < SIZEOF_ADC_CH0_VALS then
    if cnts idx = 0 then some idx
    else if vals idx = v then some idx
    else freq_scan vals cnts v (idx + 1)
  else none
termination_by SIZEOF_ADC_CH0_VALS - idx

/-- One frequency-count update; returns the new table and the slot index
written (none when the scan fell off the end without updating). -/
def freq_update (vals cnts : Nat → Int) (v : Int) :
    (Nat → Int) × (Nat → Int) × Option Nat :=
  match freq_scan vals cnts v 0 with
  | none => (vals, cnts, none)
  | some idx =>
    if cnts idx = 0 then (upd vals idx v, upd cnts idx 1, some idx)
    else (vals, upd cnts idx (cnts idx + 1), some idx)

structure VocPollState where
  vals : Nat → Int
  cnts : Nat → Int
  min_adc_noise_floor : Int
  max_adc_noise_floor : Int
  adc_ch0_val : Int
  adc_ch1_val : Int
  table_writes : List Nat

/-- State before the Voc polling loop: both arrays zeroed by memset, the
noise-floor trackers at ADC_MAX and 0.  The last-read registers are dead
until the first read; they are modelled as 0. -/
def voc_poll_init : VocPollState :=
  { vals := fun _ => 0, cnts := fun _ => 0,
    min_adc_noise_floor := ADC_MAX, max_adc_noise_floor := 0,
    adc_ch0_val := 0, adc_ch1_val := 0, table_writes := [] }

/-- The Voc polling loop over the reading pairs; each pair is (CH0, CH1)
in read order (CH0 voltage first).  The sketch runs it exactly
VOC_POLLING_LOOPS times; here the iteration count is the list length.
`table_writes` logs every slot index stored to. -/
def voc_poll_loop : List (Int × Int) → VocPollState → VocPollState
  | [], st => st
  | (ch0, ch1) :: rest, st =>
    let u := freq_update st.vals st.cnts ch0
    let tw := match u.2.2 with
      | none => st.table_writes
      | some idx => idx :: st.table_writes
    voc_poll_loop rest
      { vals := u.1, cnts := u.2.1,
        min_adc_noise_floor :=
          if ch1 < st.min_adc_noise_floor then ch1 else st.min_adc_noise_floor,
        max_adc_noise_floor :=
          if ch1 > st.max_adc_noise_floor then ch1 else st.max_adc_noise_floor,
        adc_ch0_val := ch0, adc_ch1_val := ch1, table_writes := tw }

/-- The post-polling scan for the most common voltage value (lines
499-509): stop at the first empty slot, else track the maximum count. -/
def voc_mode_scan (vals cnts : Nat → Int) (idx : Nat) (voc_adc max_count : Int) : Int :=
  if _h : idx < SIZEOF_ADC_CH0_VALS then
    if cnts idx = 0 then voc_adc
    else if cnts idx > max_count then voc_mode_scan vals cnts (idx + 1) (vals idx) (cnts idx)
    else voc_mode_scan vals cnts (idx + 1) voc_adc max_count
  else voc_adc
termination_by SIZEOF_ADC_CH0_VALS - idx

/-- done_ch1_adc = adc_noise_floor << 1, floored at 20 (lines 518-521). -/
def done_ch1_adc_of (adc_noise_floor : Int) : Int :=
  let d := adc_noise_floor * 2
  if d < 20 then 20 else d

/-- Noise floor (minimum CH1 seen) produced by one sweep's Voc polling. -/
def adc_noise_floor_of (voc_readings : List (Int × Int)) : Int :=
  (voc_poll_loop voc_readings voc_poll_init).min_adc_noise_floor

/-- Line 513: `min_isc_adc += adc_noise_floor` mutates the global config
variable; the incremented value is what the following Isc polling
compares against, and it persists into later sweeps. -/
def min_isc_adc_after_sweep (min_isc_adc_global : Int)
    (voc_readings : List (Int × Int)) : Int :=
  min_isc_adc_global + adc_noise_floor_of voc_readings

/-- The global min_isc_adc after a boot-time value `init` and a list of
sweeps (each given by its Voc-polling readings), no Config in between. -/
def min_isc_adc_after_sweeps (init : Int) (sweeps : List (List (Int × Int))) : Int :=
  sweeps.foldl min_isc_adc_after_sweep init

/-! ### Isc polling (lines 528-662)

The reading stream is a function from read-pair position to the
(CH1, CH0) pair read back-to-back (CH1 current first).  The debug branch
(negative max_isc_poll) reads CH1 alone until non-zero and CH0 only on
exit; it is modelled on the same pair stream, using the first component
until the exit read. -/

structure IscPollState where
  adc_ch0_val_prev_prev : Int
  adc_ch0_val_prev : Int
  adc_ch1_val_prev_prev : Int
  adc_ch1_val_prev : Int
  adc_ch0_val : Int
  adc_ch1_val : Int
  ssr3_is_active : Bool
  poll_timeout : Bool
  isc_poll_loops : Int
  broke : Bool
  pos : Nat

/-- The inner SSR3 wait loop (lines 585-598): up to 100 read pairs, break
once the voltage has increased by more than 10 over the pre-loop prev
value.  Returns the last pair read and the next stream position. -/
def ssr3_wait (stream : Nat → Int × Int) (adc_ch0_val_prev : Int)
    (pos : Nat) : Nat → (Int × Int) × Nat
  | 0 => (stream pos, pos + 1)
  | 1 => (stream pos, pos + 1)
  | fuel + 2 =>
    let r := stream pos
    if r.2 - adc_ch0_val_prev > 10 then (r, pos + 1)
    else ssr3_wait stream adc_ch0_val_prev (pos + 1) (fuel + 1)

/-- One iteration of the Isc polling loop body.  `Sum.inl` is the break
out of the loop (stable Isc found), `Sum.inr` continues. -/
def isc_poll_body (stream : Nat → Int × Int) (min_isc_adc isc_stable_adc : Int)
    (st : IscPollState) : IscPollState ⊕ IscPollState :=
  let r := stream st.pos
  let st1 : IscPollState := { st with adc_ch1_val := r.1, adc_ch0_val := r.2, pos := st.pos + 1 }
  let st2 : IscPollState :=
    if st1.adc_ch0_val = st1.adc_ch0_val_prev ∧
       st1.adc_ch0_val_prev = st1.adc_ch0_val_prev_prev ∧ st1.ssr3_is_active then
      let w := ssr3_wait stream st1.adc_ch0_val_prev st1.pos 100
      { st1 with ssr3_is_active := false, pos := w.2,
                 adc_ch0_val := (w.1).2, adc_ch1_val := 0,
                 adc_ch1_val_prev_prev := 0, adc_ch1_val_prev := 0 }
    else st1
  let st3 : IscPollState := { st2 with isc_poll_loops := st2.isc_poll_loops + 1 }
  if st3.adc_ch1_val > min_isc_adc then
    if st3.adc_ch0_val ≥ st3.adc_ch0_val_prev then
      if st3.adc_ch0_val_prev ≥ st3.adc_ch0_val_prev_prev ∧
         st3.adc_ch1_val ≤ st3.adc_ch1_val_prev ∧
         st3.adc_ch1_val_prev ≤ st3.adc_ch1_val_prev_prev ∧
         |st3.adc_ch1_val_prev - st3.adc_ch1_val| ≤ isc_stable_adc ∧
         |st3.adc_ch1_val_prev_prev - st3.adc_ch1_val_prev| ≤ isc_stable_adc then
        Sum.inl { st3 with poll_timeout := false, broke := true }
      else
        Sum.inr { st3 with
          adc_ch0_val_prev_prev := st3.adc_ch0_val_prev,
          adc_ch1_val_prev_prev := st3.adc_ch1_val_prev,
          adc_ch0_val_prev := st3.adc_ch0_val,
          adc_ch1_val_prev := st3.adc_ch1_val }
    else
      Sum.inr { st3 with
        adc_ch0_val_prev := st3.adc_ch0_val,
        adc_ch1_val_prev := st3.adc_ch1_val }
  else Sum.inr st3

/-- The Isc polling for-loop, fuel = remaining iterations. -/
def isc_poll_loop (stream : Nat → Int × Int) (min_isc_adc isc_stable_adc : Int) :
    Nat → IscPollState → IscPollState
  | 0, st => st
  | fuel + 1, st =>
    match isc_poll_body stream min_isc_adc isc_stable_adc st with
    | Sum.inl st' => st'
    | Sum.inr st' => isc_poll_loop stream min_isc_adc isc_stable_adc fuel st'

/-- The debug polling loop for negative max_isc_poll (lines 639-652). -/
def isc_poll_debug (stream : Nat → Int × Int) : Nat → IscPollState → IscPollState
  | 0, st => st
  | fuel + 1, st =>
    let r := stream st.pos
    let st1 := { st with adc_ch1_val := r.1, pos := st.pos + 1 }
    if st1.adc_ch1_val ≠ 0 then
      { st1 with poll_timeout := false, adc_ch0_val := r.2,
                 adc_ch1_val_prev_prev := 2048, broke := true }
    else isc_poll_debug stream fuel st1

/-- State before Isc polling (lines 528-531): voltage prevs at ADC_MAX,
current prevs at 0; the last-read registers still hold the final Voc
polling reads. -/
def isc_poll_init (last_ch0 last_ch1 : Int) : IscPollState :=
  { adc_ch0_val_prev_prev := ADC_MAX, adc_ch0_val_prev := ADC_MAX,
    adc_ch1_val_prev_prev := 0, adc_ch1_val_prev := 0,
    adc_ch0_val := last_ch0, adc_ch1_val := last_ch1,
    ssr3_is_active := true, poll_timeout := false, isc_poll_loops := 0,
    broke := false, pos := 0 }

/-- The whole Isc polling phase.  When skip_isc_poll is set (Voc below
MIN_VOC_ADC) poll_timeout is left untouched (false); otherwise it is set
true before the loop and cleared only by the stability break. -/
def isc_poll (stream : Nat → Int × Int) (min_isc_adc isc_stable_adc max_isc_poll : Int)
    (skip_isc_poll : Bool) (last_ch0 last_ch1 : Int) : IscPollState :=
  let st0 := isc_poll_init last_ch0 last_ch1
  let st1 :=
    if skip_isc_poll then st0
    else isc_poll_loop stream min_isc_adc isc_stable_adc max_isc_poll.toNat
      { st0 with poll_timeout := true }
  if max_isc_poll < 0 then
    isc_poll_debug stream MAX_ISC_POLL.toNat { st1 with poll_timeout := true }
  else st1

/-- Line 658: Isc is the current count of the earliest window sample. -/
def isc_adc_of (st : IscPollState) : Int := st.adc_ch1_val_prev_prev

/-- Lines 661-662: retained point 0 is the last-read (CH0, CH1) pair. -/
def retained0_of (st : IscPollState) : Int × Int := (st.adc_ch0_val, st.adc_ch1_val)

/-- The five-part stability predicate over the three-sample window
(prev_prev, prev, cur) exactly as tested by the nested ifs of the
polling loop (lines 606-621). -/
def StableWindow (min_isc_adc isc_stable_adc : Int) (st : IscPollState) : Prop :=
  st.adc_ch1_val > min_isc_adc ∧
  st.adc_ch0_val ≥ st.adc_ch0_val_prev ∧
  st.adc_ch0_val_prev ≥ st.adc_ch0_val_prev_prev ∧
  st.adc_ch1_val ≤ st.adc_ch1_val_prev ∧
  st.adc_ch1_val_prev ≤ st.adc_ch1_val_prev_prev ∧
  |st.adc_ch1_val_prev - st.adc_ch1_val| ≤ isc_stable_adc ∧
  |st.adc_ch1_val_prev_prev - st.adc_ch1_val_prev| ≤ isc_stable_adc

/-! ### The sweep loop (lines 687-789) -/

structure SweepParams where
  v_scale : Int
  i_scale : Int
  min_manhattan_dist : Int
  done_ch1_adc : Int
  poll_timeout : Bool
  max_iv_points : Int
  max_discards : Int

structure SweepState where
  ch0 : Nat → Int
  ch1 : Nat → Int
  pt_num : Nat
  num_meas : Nat
  num_discarded_pts : Int
  update_prev_ch1 : Bool
  adc_ch1_val_prev : Int
  adc_ch0_val_prev : Int
  adc_ch0_val : Int
  adc_ch1_val : Int
  writes : List Nat

/-- The rewind while-loop of the voltage-decrease corrector (lines
752-758): decrement pt_num while pt_num > 1 and the new voltage is below
retained[pt_num-2].voltage. -/
def rewind_pt_num (ch0 : Nat → Int) (v : Int) : Nat → Nat
  | 0 => 0
  | 1 => 1
  | n + 2 => if v < ch0 n then rewind_pt_num ch0 v (n + 1) else n + 2

/-- The voltage-decrease corrector (lines 751-762): rewind pt_num, then
overwrite retained[pt_num-1] with the current (voltage, current) pair
and request a CH1 adjustment on the next measurement. -/
def vdc_correct (st : SweepState) : SweepState :=
  let pn := rewind_pt_num st.ch0 st.adc_ch0_val st.pt_num
  { st with pt_num := pn,
            ch0 := upd st.ch0 (pn - 1) st.adc_ch0_val,
            ch1 := upd st.ch1 (pn - 1) st.adc_ch1_val,
            update_prev_ch1 := true,
            writes := (pn - 1) :: (pn - 1) :: st.writes }

/-- One iteration of the sweep while-loop, after the num_meas guard.
`rd` is the (CH1, CH0) pair read back-to-back (CH1 first).  `Sum.inl`
means the loop breaks with that state, `Sum.inr` continues.  The CH1
weighted average divides non-negative 16-bit quantities, so truncating
division (Int.div) matches the C semantics.  The deltas of 12-bit counts
fit in 16 bits; the Manhattan products and sum may wrap and go through
i16. -/
def sweep_body (p : SweepParams) (rd : Int × Int) (s : SweepState) :
    SweepState ⊕ SweepState :=
  let s1 := { s with num_meas := s.num_meas + 1, adc_ch1_val := rd.1, adc_ch0_val := rd.2 }
  let s2 :=
    if s1.update_prev_ch1 then
      { s1 with
        ch1 := upd s1.ch1 (s1.pt_num - 1)
          (Int.tdiv (s1.adc_ch1_val_prev * CH1_1ST_WEIGHT + rd.1 * CH1_2ND_WEIGHT + AVG_WEIGHT)
            TOTAL_WEIGHT),
        writes := (s1.pt_num - 1) :: s1.writes }
    else s1
  let s3 := { s2 with ch0 := upd s2.ch0 s2.pt_num rd.2, writes := s2.pt_num :: s2.writes }
  let adc_ch0_delta := rd.2 - s3.ch0 (s3.pt_num - 1)
  let s4 := { s3 with adc_ch0_val_prev := rd.2 }
  let adc_ch1_delta := s4.ch1 (s4.pt_num - 1) - rd.1
  let adc_ch1_prev_delta := s4.adc_ch1_val_prev - rd.1
  let s5 := { s4 with adc_ch1_val_prev := rd.1 }
  if rd.1 < p.done_ch1_adc ∧ adc_ch1_prev_delta < 3 then Sum.inl s5
  else if p.poll_timeout then Sum.inl s5
  else if rd.2 < s5.ch0 (s5.pt_num - 1) then Sum.inr (vdc_correct s5)
  else
    let manhattan_distance := i16 (i16 (adc_ch0_delta * p.v_scale) + i16 (adc_ch1_delta * p.i_scale))
    if manhattan_distance ≥ p.min_manhattan_dist ∨ s5.num_discarded_pts ≥ p.max_discards then
      let s6 := { s5 with pt_num := s5.pt_num + 1, update_prev_ch1 := true, num_discarded_pts := 0 }
      if (s6.pt_num : Int) ≥ p.max_iv_points then Sum.inl s6 else Sum.inr s6
    else Sum.inr { s5 with update_prev_ch1 := false, num_discarded_pts := s5.num_discarded_pts + 1 }

/-- The sweep while-loop: guard num_meas < MAX_IV_MEAS, then one body
iteration per reading pair until a break. -/
def sweep_loop (p : SweepParams) : List (Int × Int) → SweepState → SweepState
  | [], s => s
  | rd :: rest, s =>
    if s.num_meas < MAX_IV_MEAS then
      match sweep_body p rd s with
      | Sum.inl s' => s'
      | Sum.inr s' => sweep_loop p rest s'
    else s

/-- Sweep-loop entry state (lines 660-694): retained point 0 is the last
polling pair, pt_num = 1, num_meas = 1, adc_ch1_val_prev = retained
point 0's current.  The arrays passed in are whatever the Voc-polling
frequency table left behind.  adc_ch0_val_prev is dead in the sweep
loop and modelled as 0. -/
def sweep_init (ch0 ch1 : Nat → Int) (last_ch0 last_ch1 : Int) : SweepState :=
  let ch1w := upd ch1 0 last_ch1
  { ch0 := upd ch0 0 last_ch0, ch1 := ch1w,
    pt_num := 1, num_meas := 1, num_discarded_pts := 0, update_prev_ch1 := false,
    adc_ch1_val_prev := ch1w 0,
    adc_ch0_val_prev := 0, adc_ch0_val := last_ch0, adc_ch1_val := last_ch1,
    writes := [0, 0] }

/-- The sweep loop followed by the post-loop fixup (lines 786-789): if a
CH1 adjustment is still pending, store the final current reading. -/
def sweep_run (p : SweepParams) (readings : List (Int × Int)) (s0 : SweepState) :
    SweepState :=
  let s := sweep_loop p readings s0
  if s.update_prev_ch1 then
    { s with ch1 := upd s.ch1 (s.pt_num - 1) s.adc_ch1_val,
             writes := (s.pt_num - 1) :: s.writes }
  else s

/-- The entries of ch0 below index n are pairwise non-decreasing. -/
def sortedBelow (ch0 : Nat → Int) (n : Nat) : Prop :=
  ∀ i, i + 1 < n → ch0 i ≤ ch0 (i + 1)

/-- Retained voltages below pt_num are pairwise non-decreasing. -/
def VoltSorted (s : SweepState) : Prop :=
  sortedBelow s.ch0 s.pt_num

/-- The sweep-loop invariant at the top of an iteration: at least one
retained point, room below max_iv_points (except in the initial
one-point state), and sorted retained voltages. -/
def SInv (p : SweepParams) (s : SweepState) : Prop :=
  1 ≤ s.pt_num ∧ (s.pt_num = 1 ∨ (s.pt_num : Int) < p.max_iv_points) ∧ VoltSorted s

/-- What survives a loop exit: at least one retained point, pt_num within
bounds (2 covers the immediate-break corner of a tiny max_iv_points),
and sorted retained voltages. -/
def FInv (p : SweepParams) (s : SweepState) : Prop :=
  1 ≤ s.pt_num ∧ (s.pt_num ≤ 2 ∨ (s.pt_num : Int) ≤ p.max_iv_points) ∧ VoltSorted s

/-! ### Host Config message processing (process_config_msg) -/

structure Config where
  clk_div : Int
  max_iv_points : Int
  min_isc_adc : Int
  max_isc_poll : Int
  isc_stable_adc : Int
  max_discards : Int
  aspect_height : Int
  aspect_width : Int

/-- Boot-time values of the configuration globals.  CLK_DIV is the AVR
constant SPI_CLOCK_DIV8 = 5. -/
def initial_config : Config :=
  { clk_div := 5, max_iv_points := 275, min_isc_adc := MIN_ISC_ADC,
    max_isc_poll := MAX_ISC_POLL, isc_stable_adc := ISC_STABLE_ADC,
    max_discards := MAX_DISCARDS, aspect_height := 2, aspect_width := 3 }

/-- C atoi on the decimal strings the host sends; non-numeric text parses
to 0 as in atoi. -/
def atoi (s : String) : Int := (s.toInt?).getD 0

/-- The wrong-argument-count error output (lines 1139-1148).  The source
prints ", got  " with two spaces before the count. -/
def wrong_arg_msg (exp_args : Nat) (config_type : String) (num_args : Nat) : List String :=
  ["ERROR: Expected " ++ toString exp_args ++ " args for config type " ++
      config_type ++ ", got  " ++ toString num_args,
   "Config not processed"]

/-- process_config_msg over the whitespace tokens following the leading
"Config" token.  Returns the new configuration and the emitted lines.
The EEPROM / relay-drive / calibration commands act on hardware state
outside the Config record; their successful branches leave the record
unchanged here.  An empty token list leaves config_type uninitialized in
the C source (never sent by the host); it is modelled as the
unknown-type path with an empty name. -/
def process_config_msg (cfg : Config) (tokens : List String) : Config × List String :=
  match tokens with
  | [] => (cfg, ["ERROR: Unknown config type: ", "Config not processed"])
  | config_type :: rest =>
    if rest.length > 2 then
      (cfg, ["ERROR: Too many fields in config message", "Config not processed"])
    else
      let num_args := rest.length
      let config_val := rest.getD 0 ""
      if config_type = "CLK_DIV" then
        if num_args = 1 then ({ cfg with clk_div := atoi config_val }, ["Config processed"])
        else (cfg, wrong_arg_msg 1 config_type num_args)
      else if config_type = "MAX_IV_POINTS" then
        if num_args = 1 then
          let m := atoi config_val
          let m2 := if m > (MAX_IV_POINTS : Int) then (MAX_IV_POINTS : Int) else m
          ({ cfg with max_iv_points := m2 }, ["Config processed"])
        else (cfg, wrong_arg_msg 1 config_type num_args)
      else if config_type = "MIN_ISC_ADC" then
        if num_args = 1 then ({ cfg with min_isc_adc := atoi config_val }, ["Config processed"])
        else (cfg, wrong_arg_msg 1 config_type num_args)
      else if config_type = "MAX_ISC_POLL" then
        if num_args = 1 then ({ cfg with max_isc_poll := atoi config_val }, ["Config processed"])
        else (cfg, wrong_arg_msg 1 config_type num_args)
      else if config_type = "ISC_STABLE_ADC" then
        if num_args = 1 then ({ cfg with isc_stable_adc := atoi config_val }, ["Config processed"])
        else (cfg, wrong_arg_msg 1 config_type num_args)
      else if config_type = "MAX_DISCARDS" then
        if num_args = 1 then ({ cfg with max_discards := atoi config_val }, ["Config processed"])
        else (cfg, wrong_arg_msg 1 config_type num_args)
      else if config_type = "ASPECT_HEIGHT" then
        if num_args = 1 then ({ cfg with aspect_height := atoi config_val }, ["Config processed"])
        else (cfg, wrong_arg_msg 1 config_type num_args)
      else if config_type = "ASPECT_WIDTH" then
        if num_args = 1 then ({ cfg with aspect_width := atoi config_val }, ["Config processed"])
        else (cfg, wrong_arg_msg 1 config_type num_args)
      else if config_type = "WRITE_EEPROM" then
        if num_args = 2 then (cfg, ["Config processed"])
        else (cfg, wrong_arg_msg 2 config_type num_args)
      else if config_type = "DUMP_EEPROM" then
        if num_args = 0 then (cfg, ["Config processed"])
        else (cfg, wrong_arg_msg 0 config_type num_args)
      else if config_type = "RELAY_STATE" then
        if num_args = 1 then (cfg, ["Config processed"])
        else (cfg, wrong_arg_msg 1 config_type num_args)
      else if config_type = "SECOND_RELAY_STATE" then
        if num_args = 1 then (cfg, ["Config processed"])
        else (cfg, wrong_arg_msg 1 config_type num_args)
      else if config_type = "DO_SSR_CURR_CAL" then
        if num_args = 0 then (cfg, ["Config processed"])
        else (cfg, wrong_arg_msg 0 config_type num_args)
      else
        (cfg, ["ERROR: Unknown config type: " ++ config_type, "Config not processed"])

/-! ### One whole sweep (Voc polling through the report payload) -/

structure SweepResult where
  voc_adc : Int
  adc_noise_floor : Int
  max_adc_noise_floor : Int
  relay_activated : Bool
  skip_isc_poll : Bool
  poll_timeout : Bool
  isc_poll_loops : Int
  isc_adc : Int
  v_scale : Nat
  i_scale : Nat
  min_manhattan_dist : Nat
  pt_num : Nat
  num_meas : Nat
  ch0 : Nat → Int
  ch1 : Nat → Int
  report : List String

/-- One execution of the sweep portion of loop(): Voc polling over
`voc_readings` (pairs read CH0 then CH1), the noise-floor bump of the
global min_isc_adc, the connected check against MIN_VOC_ADC (relay is
activated only in the connected branch, where poll_timeout is also
preset true), Isc polling over `isc_stream` (pairs read CH1 then CH0),
scale and minimum-distance computation, the sweep loop over
`sweep_readings`, and the payload portion of the serial report (noise
floor lines, the Isc line, one line per recorded point, the Voc line).
The timing diagnostics that follow in the real report depend on micros()
and are not modelled. -/
def run_sweep (cfg : Config) (voc_readings : List (Int × Int))
    (isc_stream : Nat → Int × Int) (sweep_readings : List (Int × Int)) : SweepResult :=
  let vp := voc_poll_loop voc_readings voc_poll_init
  let voc0 := voc_mode_scan vp.vals vp.cnts 0 0 0
  let adc_noise_floor := vp.min_adc_noise_floor
  let min_isc_eff := cfg.min_isc_adc + adc_noise_floor
  let done_ch1 := done_ch1_adc_of adc_noise_floor
  let skip := voc0 < MIN_VOC_ADC
  let voc_adc := if skip then 0 else voc0
  let skip_b := if skip then true else false
  let ip := isc_poll isc_stream min_isc_eff cfg.isc_stable_adc cfg.max_isc_poll skip_b
    vp.adc_ch0_val vp.adc_ch1_val
  let isc_adc := isc_adc_of ip
  let r0 := retained0_of ip
  let s0 := sweep_init vp.vals vp.cnts r0.1 r0.2
  let scales := compute_v_and_i_scale cfg.aspect_width.toNat cfg.aspect_height.toNat
    isc_adc.toNat voc_adc.toNat
  let mmd := min_manhattan_distance isc_adc.toNat scales.2 voc_adc.toNat scales.1
    cfg.max_iv_points.toNat
  let p : SweepParams :=
    { v_scale := scales.1, i_scale := scales.2, min_manhattan_dist := mmd,
      done_ch1_adc := done_ch1, poll_timeout := ip.poll_timeout,
      max_iv_points := cfg.max_iv_points, max_discards := cfg.max_discards }
  let fin := sweep_run p sweep_readings s0
  { voc_adc := voc_adc, adc_noise_floor := adc_noise_floor,
    max_adc_noise_floor := vp.max_adc_noise_floor,
    relay_activated := if skip then false else true, skip_isc_poll := skip_b,
    poll_timeout := ip.poll_timeout, isc_poll_loops := ip.isc_poll_loops,
    isc_adc := isc_adc, v_scale := scales.1, i_scale := scales.2,
    min_manhattan_dist := mmd, pt_num := fin.pt_num, num_meas := fin.num_meas,
    ch0 := fin.ch0, ch1 := fin.ch1,
    report :=
      ["CH1 ADC noise floor (min):" ++ toString vp.min_adc_noise_floor,
       "CH1 ADC noise floor (max):" ++ toString vp.max_adc_noise_floor,
       "Isc CH0:0 CH1:" ++ toString isc_adc] ++
      ((List.range fin.pt_num).map fun ii =>
        toString ii ++ " CH0:" ++ toString (fin.ch0 ii) ++ " CH1:" ++ toString (fin.ch1 ii)) ++
      ["Voc CH0:" ++ toString voc_adc ++ " CH1:" ++ toString adc_noise_floor] }

/-! ### Lemmas about the bit search and the scale bounds -/

theorem upd_same (f : Nat → Int) (idx : Nat) (x : Int) : upd f idx x idx = x := by
  simp [upd]

theorem upd_ne (f : Nat → Int) (idx j : Nat) (x : Int) (h : j ≠ idx) :
    upd f idx x j = f j := by
  simp [upd, h]

theorem fsl_below (lg n : Nat) (h : n < 4) : find_shift_loop lg n = (0, 0) := by
  match n, h with
  | 0, _ => rfl
  | 1, _ => rfl
  | 2, _ => rfl
  | 3, _ => rfl

theorem fsl_skip (lg n : Nat) (h : lg.testBit (n + 4) = false) :
    find_shift_loop lg (n + 4) = find_shift_loop lg (n + 3) := by
  rw [find_shift_loop]
  rw [Nat.one_shiftLeft, Nat.and_two_pow, h]
  simp

theorem fsl_down (lg : Nat) : ∀ c b : Nat, b ≤ c →
    (∀ j, b < j → j ≤ c → lg.testBit j = false) →
    find_shift_loop lg c = find_shift_loop lg b := by
  intro c
  induction c with
  | zero =>
    intro b hb _
    have hb0 : b = 0 := by omega
    rw [hb0]
  | succ c ih =>
    intro b hb hh
    rcases Nat.eq_or_lt_of_le hb with h | h
    · rw [h]
    · have hbc : b ≤ c := by omega
      have step : find_shift_loop lg (c + 1) = find_shift_loop lg c := by
        by_cases hc : c + 1 < 4
        · rw [fsl_below lg (c + 1) hc, fsl_below lg c (by omega)]
        · have hc3 : c + 1 = (c - 3) + 4 := by omega
          have hc4 : c = (c - 3) + 3 := by omega
          rw [hc3, fsl_skip lg (c - 3)
            (by rw [← hc3]; exact hh (c + 1) (by omega) (by omega)), ← hc4]
      rw [step]
      exact ih b hbc (fun j h1 h2 => hh j h1 (by omega))

/-- When `lg` has its leftmost set bit at position `b ∈ [4, 15]`, the bit
search returns shift amount `b - 3` and round-up mask `2 ^ (b - 4)`. -/
theorem find_shift_spec (lg b : Nat) (hb4 : 4 ≤ b) (hb15 : b ≤ 15)
    (hlo : 2 ^ b ≤ lg) (hhi : lg < 2 ^ (b + 1)) :
    find_shift lg = (b - 3, 2 ^ (b - 4)) := by
  have hhigh : ∀ j, b < j → j ≤ 15 → lg.testBit j = false := by
    intro j h1 _
    exact Nat.testBit_lt_two_pow (lt_of_lt_of_le hhi (Nat.pow_le_pow_right (by norm_num) h1))
  have h1 : find_shift lg = find_shift_loop lg b := fsl_down lg 15 b hb15 hhigh
  have hbit : lg.testBit b = true := by
    rw [Nat.testBit_to_div_mod]
    have hdiv : lg / 2 ^ b = 1 := Nat.div_eq_of_lt_le (by omega) (by omega)
    rw [hdiv]
    decide
  have hb44 : b = (b - 4) + 4 := by omega
  rw [h1, hb44, find_shift_loop]
  rw [Nat.one_shiftLeft, Nat.and_two_pow, ← hb44, hbit]
  simp only [Bool.toNat_true, one_mul, Nat.one_shiftLeft]
  have hne : 2 ^ b ≠ 0 := by positivity
  rw [if_pos hne]
  have e1 : b - 4 + 1 = b - 3 := by omega
  rw [e1]

/-- When `lg < 16` no bit in [4, 15] is set and the search leaves shift 0
and (modelled) mask 0. -/
theorem find_shift_small (lg : Nat) (h : lg < 16) : find_shift lg = (0, 0) := by
  have hhigh : ∀ j, 3 < j → j ≤ 15 → lg.testBit j = false := by
    intro j h1 _
    refine Nat.testBit_lt_two_pow (lt_of_lt_of_le h ?hx)
    calc (16 : Nat) = 2 ^ 4 := by norm_num
    _ ≤ 2 ^ j := Nat.pow_le_pow_right (by norm_num) (by omega)
  rw [find_shift, fsl_down lg 15 3 (by omega) hhigh, fsl_below lg 3 (by omega)]

theorem scale_adjust_bounds (a s : Nat) (ha1 : 1 ≤ a) (ha16 : a ≤ 16)
    (hs16 : s ≤ 16) (hsa : s ≤ a + 1) :
    1 ≤ (scale_adjust a s).1 ∧ 1 ≤ (scale_adjust a s).2 ∧
      (scale_adjust a s).1 + (scale_adjust a s).2 ≤ 16 := by
  rw [scale_adjust]
  simp only [Nat.shiftRight_eq_div_pow, pow_one]
  split <;> split <;> split <;> omega

theorem scale_core_bounds (lg sm : Nat) (hsm : sm ≤ lg) (hlo : 2 ≤ lg)
    (hhi : lg < 2 ^ 15) :
    1 ≤ (scale_core lg sm).1 ∧ 1 ≤ (scale_core lg sm).2 ∧
      (scale_core lg sm).1 + (scale_core lg sm).2 ≤ 16 := by
  by_cases hsmall : lg < 16
  · rw [scale_core, find_shift_small lg hsmall]
    simp only [Nat.and_zero, ne_eq, not_true_eq_false, if_false, Nat.shiftRight_zero]
    exact scale_adjust_bounds lg sm (by omega) (by omega) (by omega) (by omega)
  · push_neg at hsmall
    have hlgne : lg ≠ 0 := by omega
    have hblo : 2 ^ Nat.log2 lg ≤ lg := Nat.log2_self_le hlgne
    have hbhi : lg < 2 ^ (Nat.log2 lg + 1) := Nat.lt_log2_self
    have hb4 : 4 ≤ Nat.log2 lg := by
      by_contra hlt
      push_neg at hlt
      have : 2 ^ (Nat.log2 lg + 1) ≤ 2 ^ 4 := Nat.pow_le_pow_right (by norm_num) (by omega)
      omega
    have hb14 : Nat.log2 lg ≤ 14 := by
      by_contra hgt
      push_neg at hgt
      have : 2 ^ 15 ≤ 2 ^ Nat.log2 lg := Nat.pow_le_pow_right (by norm_num) (by omega)
      omega
    rw [scale_core, find_shift_spec lg (Nat.log2 lg) hb4 (by omega) hblo hbhi]
    simp only [Nat.shiftRight_eq_div_pow]
    have hpow : (0 : Nat) < 2 ^ (Nat.log2 lg - 3) := by positivity
    have hL1 : 8 ≤ lg / 2 ^ (Nat.log2 lg - 3) := by
      apply (Nat.le_div_iff_mul_le hpow).2
      calc 8 * 2 ^ (Nat.log2 lg - 3) = 2 ^ 3 * 2 ^ (Nat.log2 lg - 3) := by norm_num
      _ = 2 ^ (3 + (Nat.log2 lg - 3)) := by rw [pow_add]
      _ = 2 ^ Nat.log2 lg := by congr 1; omega
      _ ≤ lg := hblo
    have hL2 : lg / 2 ^ (Nat.log2 lg - 3) < 16 := by
      apply (Nat.div_lt_iff_lt_mul hpow).2
      calc lg < 2 ^ (Nat.log2 lg + 1) := hbhi
      _ = 2 ^ 4 * 2 ^ (Nat.log2 lg - 3) := by rw [← pow_add]; congr 1; omega
      _ = 16 * 2 ^ (Nat.log2 lg - 3) := by norm_num
    have hS : sm / 2 ^ (Nat.log2 lg - 3) ≤ lg / 2 ^ (Nat.log2 lg - 3) :=
      Nat.div_le_div_right hsm
    split <;> split <;>
      exact scale_adjust_bounds _ _ (by omega) (by omega) (by omega) (by omega)

/-! ### Sweep-loop invariants: sortedness, bounds, write indices -/

/-! Sorted-array helpers -/

theorem sortedBelow_upd_of_le (ch0 : Nat → Int) (n idx : Nat) (v : Int)
    (h : sortedBelow ch0 n) (hidx : n ≤ idx) : sortedBelow (upd ch0 idx v) n := by
  intro i hi
  rw [upd_ne _ _ _ _ (by omega), upd_ne _ _ _ _ (by omega)]
  exact h i hi

theorem sortedBelow_mono (ch0 : Nat → Int) (m n : Nat) (h : sortedBelow ch0 n)
    (hm : m ≤ n) : sortedBelow ch0 m := fun i hi => h i (by omega)

theorem sortedBelow_trans (ch0 : Nat → Int) (n : Nat) (h : sortedBelow ch0 n) :
    ∀ i j, i ≤ j → j < n → ch0 i ≤ ch0 j := by
  intro i j hij hj
  induction j with
  | zero => have : i = 0 := by omega
            rw [this]
  | succ k ih =>
    rcases Nat.eq_or_lt_of_le hij with he | hlt
    · rw [he]
    · exact le_trans (ih (by omega) (by omega)) (h k (by omega))

theorem sortedBelow_snoc (ch0 : Nat → Int) (n : Nat) (v : Int)
    (h : sortedBelow ch0 n) (hn : 1 ≤ n) (hv : ch0 (n - 1) ≤ v) :
    sortedBelow (upd ch0 n v) (n + 1) := by
  intro i hi
  by_cases hc : i + 1 < n
  · rw [upd_ne _ _ _ _ (by omega), upd_ne _ _ _ _ (by omega)]
    exact h i hc
  · have : i + 1 = n := by omega
    rw [upd_ne _ _ _ _ (by omega), this, upd_same]
    have : i = n - 1 := by omega
    rw [this]
    exact hv

/-! Rewind-loop lemmas -/

theorem rewind_bounds (ch0 : Nat → Int) (v : Int) :
    ∀ n, 1 ≤ n → 1 ≤ rewind_pt_num ch0 v n ∧ rewind_pt_num ch0 v n ≤ n := by
  intro n
  induction n using Nat.strong_induction_on with
  | _ n ih =>
    match n with
    | 0 => intro h; omega
    | 1 => intro _; exact ⟨le_refl 1, le_refl 1⟩
    | m + 2 =>
      intro _
      rw [rewind_pt_num]
      split
      · have h := ih (m + 1) (by omega) (by omega)
        exact ⟨h.1, by omega⟩
      · exact ⟨by omega, le_refl _⟩

theorem rewind_stop (ch0 : Nat → Int) (v : Int) :
    ∀ n, 2 ≤ rewind_pt_num ch0 v n → ch0 (rewind_pt_num ch0 v n - 2) ≤ v := by
  intro n
  induction n using Nat.strong_induction_on with
  | _ n ih =>
    match n with
    | 0 => intro h; rw [rewind_pt_num] at h; omega
    | 1 => intro h; rw [rewind_pt_num] at h; omega
    | m + 2 =>
      rw [rewind_pt_num]
      split
      · exact ih (m + 1) (by omega)
      · intro _
        rename_i hnot
        have : m + 2 - 2 = m := by omega
        rw [this]
        omega

theorem rewind_ge_two (ch0 : Nat → Int) (v : Int) (h0 : ¬ v < ch0 0) :
    ∀ n, 2 ≤ n → 2 ≤ rewind_pt_num ch0 v n := by
  intro n
  induction n using Nat.strong_induction_on with
  | _ n ih =>
    match n with
    | 0 => intro h; omega
    | 1 => intro h; omega
    | m + 2 =>
      intro _
      rw [rewind_pt_num]
      split
      · rename_i hlt
        match m, hlt with
        | 0, hlt => exact absurd hlt h0
        | k + 1, hlt => exact ih (k + 2) (by omega) (by omega)
      · omega

theorem rewind_all_below (ch0 : Nat → Int) (v : Int) :
    ∀ n, 1 ≤ n → (∀ k, k + 2 ≤ n → v < ch0 k) → rewind_pt_num ch0 v n = 1 := by
  intro n
  induction n using Nat.strong_induction_on with
  | _ n ih =>
    match n with
    | 0 => intro h _; omega
    | 1 => intro _ _; rfl
    | m + 2 =>
      intro _ hall
      rw [rewind_pt_num]
      rw [if_pos (hall m (by omega))]
      exact ih (m + 1) (by omega) (by omega) (fun k hk => hall k (by omega))



theorem sortedBelow_rewrite (ch0 : Nat → Int) (pt : Nat) (v : Int) (h1 : 1 ≤ pt)
    (hsort : sortedBelow ch0 pt) :
    sortedBelow (upd ch0 (rewind_pt_num ch0 v pt - 1) v) (rewind_pt_num ch0 v pt) := by
  have hb := rewind_bounds ch0 v pt h1
  intro i hi
  by_cases hc : i + 1 = rewind_pt_num ch0 v pt - 1
  · have hpn2 : 2 ≤ rewind_pt_num ch0 v pt := by omega
    have hst := rewind_stop ch0 v pt hpn2
    rw [upd_ne _ _ _ _ (by omega), hc, upd_same]
    have hieq : i = rewind_pt_num ch0 v pt - 2 := by omega
    rw [hieq]
    exact hst
  · rw [upd_ne _ _ _ _ (by omega), upd_ne _ _ _ _ (by omega)]
    exact hsort i (by omega)

theorem vdc_inv (p : SweepParams) (s : SweepState) (h1 : 1 ≤ s.pt_num)
    (hpre : s.pt_num = 1 ∨ (s.pt_num : Int) < p.max_iv_points)
    (hsort : sortedBelow s.ch0 s.pt_num) :
    SInv p (vdc_correct s) ∧ (vdc_correct s).num_meas = s.num_meas ∧
      (∀ w ∈ (vdc_correct s).writes, w ∈ s.writes ∨ w + 1 ≤ s.pt_num) := by
  have hb := rewind_bounds s.ch0 s.adc_ch0_val s.pt_num h1
  refine ⟨⟨?_, ?_, ?_⟩, rfl, ?_⟩
  · simpa [vdc_correct] using hb.1
  · simp only [vdc_correct]
    omega
  · simp only [VoltSorted, vdc_correct]
    exact sortedBelow_rewrite s.ch0 s.pt_num s.adc_ch0_val h1 hsort
  · intro w hw
    simp only [vdc_correct, List.mem_cons] at hw
    rcases hw with h | h | h
    · right; omega
    · right; omega
    · left; exact h



theorem sweep_body_inv (p : SweepParams) (rd : Int × Int) (s : SweepState)
    (hs : SInv p s) :
    (∀ s', sweep_body p rd s = Sum.inl s' →
      FInv p s' ∧ s'.num_meas = s.num_meas + 1 ∧
        (∀ w ∈ s'.writes, w ∈ s.writes ∨ w ≤ s.pt_num)) ∧
    (∀ s', sweep_body p rd s = Sum.inr s' →
      SInv p s' ∧ s'.num_meas = s.num_meas + 1 ∧
        (∀ w ∈ s'.writes, w ∈ s.writes ∨ w ≤ s.pt_num)) := by
  obtain ⟨h1, h2, h3⟩ := hs
  have hne : s.pt_num - 1 ≠ s.pt_num := by omega
  constructor <;> intro s' h <;> simp only [sweep_body] at h <;>
    split_ifs at h with c1 c2 c3 c4 c5 c6 c7 c8 c9 c10 c11 <;>
    (try (injection h with h; subst h))
  -- inl 1: interp, done-break
  · refine ⟨⟨h1, ?_, ?_⟩, rfl, ?_⟩
    · show s.pt_num ≤ 2 ∨ (s.pt_num : Int) ≤ p.max_iv_points
      omega
    · exact sortedBelow_upd_of_le s.ch0 s.pt_num s.pt_num rd.2 h3 (le_refl _)
    · intro w hw
      have hw2 : w ∈ s.pt_num :: (s.pt_num - 1) :: s.writes := hw
      rcases hw2 with _ | ⟨_, hw3⟩
      · right; omega
      · rcases hw3 with _ | ⟨_, hw4⟩
        · right; omega
        · left; exact hw4
  -- inl 2: interp, poll_timeout break
  · refine ⟨⟨h1, ?_, ?_⟩, rfl, ?_⟩
    · show s.pt_num ≤ 2 ∨ (s.pt_num : Int) ≤ p.max_iv_points
      omega
    · exact sortedBelow_upd_of_le s.ch0 s.pt_num s.pt_num rd.2 h3 (le_refl _)
    · intro w hw
      have hw2 : w ∈ s.pt_num :: (s.pt_num - 1) :: s.writes := hw
      rcases hw2 with _ | ⟨_, hw3⟩
      · right; omega
      · rcases hw3 with _ | ⟨_, hw4⟩
        · right; omega
        · left; exact hw4
  -- inl 3: interp, keep, buffer full break
  · have hv : ¬ rd.2 < upd s.ch0 s.pt_num rd.2 (s.pt_num - 1) := c4
    rw [upd_ne s.ch0 s.pt_num (s.pt_num - 1) rd.2 hne] at hv
    refine ⟨⟨?_, ?_, ?_⟩, rfl, ?_⟩
    · show 1 ≤ s.pt_num + 1
      omega
    · show s.pt_num + 1 ≤ 2 ∨ ((s.pt_num + 1 : Nat) : Int) ≤ p.max_iv_points
      rcases h2 with h' | h'
      · left; omega
      · right; push_cast; omega
    · exact sortedBelow_snoc s.ch0 s.pt_num rd.2 h3 h1 (by omega)
    · intro w hw
      have hw2 : w ∈ s.pt_num :: (s.pt_num - 1) :: s.writes := hw
      rcases hw2 with _ | ⟨_, hw3⟩
      · right; omega
      · rcases hw3 with _ | ⟨_, hw4⟩
        · right; omega
        · left; exact hw4
  -- inl 4: no interp, done-break
  · refine ⟨⟨h1, ?_, ?_⟩, rfl, ?_⟩
    · show s.pt_num ≤ 2 ∨ (s.pt_num : Int) ≤ p.max_iv_points
      omega
    · exact sortedBelow_upd_of_le s.ch0 s.pt_num s.pt_num rd.2 h3 (le_refl _)
    · intro w hw
      have hw2 : w ∈ s.pt_num :: s.writes := hw
      rcases hw2 with _ | ⟨_, hw3⟩
      · right; omega
      · left; exact hw3
  -- inl 5: no interp, poll_timeout break
  · refine ⟨⟨h1, ?_, ?_⟩, rfl, ?_⟩
    · show s.pt_num ≤ 2 ∨ (s.pt_num : Int) ≤ p.max_iv_points
      omega
    · exact sortedBelow_upd_of_le s.ch0 s.pt_num s.pt_num rd.2 h3 (le_refl _)
    · intro w hw
      have hw2 : w ∈ s.pt_num :: s.writes := hw
      rcases hw2 with _ | ⟨_, hw3⟩
      · right; omega
      · left; exact hw3
  -- inl 6: no interp, keep, buffer full break
  · have hv : ¬ rd.2 < upd s.ch0 s.pt_num rd.2 (s.pt_num - 1) := c9
    rw [upd_ne s.ch0 s.pt_num (s.pt_num - 1) rd.2 hne] at hv
    refine ⟨⟨?_, ?_, ?_⟩, rfl, ?_⟩
    · show 1 ≤ s.pt_num + 1
      omega
    · show s.pt_num + 1 ≤ 2 ∨ ((s.pt_num + 1 : Nat) : Int) ≤ p.max_iv_points
      rcases h2 with h' | h'
      · left; omega
      · right; push_cast; omega
    · exact sortedBelow_snoc s.ch0 s.pt_num rd.2 h3 h1 (by omega)
    · intro w hw
      have hw2 : w ∈ s.pt_num :: s.writes := hw
      rcases hw2 with _ | ⟨_, hw3⟩
      · right; omega
      · left; exact hw3
  -- inr 1: interp, voltage-decrease corrector
  · have hvdc := vdc_inv p
      { s with num_meas := s.num_meas + 1, adc_ch1_val := rd.1, adc_ch0_val := rd.2,
               ch1 := upd s.ch1 (s.pt_num - 1)
                 (Int.tdiv (s.adc_ch1_val_prev * CH1_1ST_WEIGHT + rd.1 * CH1_2ND_WEIGHT + AVG_WEIGHT)
                   TOTAL_WEIGHT),
               ch0 := upd s.ch0 s.pt_num rd.2,
               adc_ch0_val_prev := rd.2, adc_ch1_val_prev := rd.1,
               writes := s.pt_num :: (s.pt_num - 1) :: s.writes }
      h1 h2 (sortedBelow_upd_of_le s.ch0 s.pt_num s.pt_num rd.2 h3 (le_refl _))
    refine ⟨hvdc.1, hvdc.2.1, ?_⟩
    · intro w hw
      rcases hvdc.2.2 w hw with hin | hle
      · have hw2 : w ∈ s.pt_num :: (s.pt_num - 1) :: s.writes := hin
        rcases hw2 with _ | ⟨_, hw3⟩
        · right; omega
        · rcases hw3 with _ | ⟨_, hw4⟩
          · right; omega
          · left; exact hw4
      · right
        have hle2 : w + 1 ≤ s.pt_num := hle
        omega
  -- inr 2: interp, keep, continue
  · have hv : ¬ rd.2 < upd s.ch0 s.pt_num rd.2 (s.pt_num - 1) := c4
    rw [upd_ne s.ch0 s.pt_num (s.pt_num - 1) rd.2 hne] at hv
    have hfull : ¬ (((s.pt_num + 1 : Nat) : Int) ≥ p.max_iv_points) := c6
    refine ⟨⟨?_, ?_, ?_⟩, rfl, ?_⟩
    · show 1 ≤ s.pt_num + 1
      omega
    · show s.pt_num + 1 = 1 ∨ ((s.pt_num + 1 : Nat) : Int) < p.max_iv_points
      right; omega
    · exact sortedBelow_snoc s.ch0 s.pt_num rd.2 h3 h1 (by omega)
    · intro w hw
      have hw2 : w ∈ s.pt_num :: (s.pt_num - 1) :: s.writes := hw
      rcases hw2 with _ | ⟨_, hw3⟩
      · right; omega
      · rcases hw3 with _ | ⟨_, hw4⟩
        · right; omega
        · left; exact hw4
  -- inr 3: interp, discard
  · refine ⟨⟨h1, h2, ?_⟩, rfl, ?_⟩
    · exact sortedBelow_upd_of_le s.ch0 s.pt_num s.pt_num rd.2 h3 (le_refl _)
    · intro w hw
      have hw2 : w ∈ s.pt_num :: (s.pt_num - 1) :: s.writes := hw
      rcases hw2 with _ | ⟨_, hw3⟩
      · right; omega
      · rcases hw3 with _ | ⟨_, hw4⟩
        · right; omega
        · left; exact hw4
  -- inr 4: no interp, voltage-decrease corrector
  · have hvdc := vdc_inv p
      { s with num_meas := s.num_meas + 1, adc_ch1_val := rd.1, adc_ch0_val := rd.2,
               ch0 := upd s.ch0 s.pt_num rd.2,
               adc_ch0_val_prev := rd.2, adc_ch1_val_prev := rd.1,
               writes := s.pt_num :: s.writes }
      h1 h2 (sortedBelow_upd_of_le s.ch0 s.pt_num s.pt_num rd.2 h3 (le_refl _))
    refine ⟨hvdc.1, hvdc.2.1, ?_⟩
    · intro w hw
      rcases hvdc.2.2 w hw with hin | hle
      · have hw2 : w ∈ s.pt_num :: s.writes := hin
        rcases hw2 with _ | ⟨_, hw3⟩
        · right; omega
        · left; exact hw3
      · right
        have hle2 : w + 1 ≤ s.pt_num := hle
        omega
  -- inr 5: no interp, keep, continue
  · have hv : ¬ rd.2 < upd s.ch0 s.pt_num rd.2 (s.pt_num - 1) := c9
    rw [upd_ne s.ch0 s.pt_num (s.pt_num - 1) rd.2 hne] at hv
    have hfull : ¬ (((s.pt_num + 1 : Nat) : Int) ≥ p.max_iv_points) := c11
    refine ⟨⟨?_, ?_, ?_⟩, rfl, ?_⟩
    · show 1 ≤ s.pt_num + 1
      omega
    · show s.pt_num + 1 = 1 ∨ ((s.pt_num + 1 : Nat) : Int) < p.max_iv_points
      right; omega
    · exact sortedBelow_snoc s.ch0 s.pt_num rd.2 h3 h1 (by omega)
    · intro w hw
      have hw2 : w ∈ s.pt_num :: s.writes := hw
      rcases hw2 with _ | ⟨_, hw3⟩
      · right; omega
      · left; exact hw3
  -- inr 6: no interp, discard
  · refine ⟨⟨h1, h2, ?_⟩, rfl, ?_⟩
    · exact sortedBelow_upd_of_le s.ch0 s.pt_num s.pt_num rd.2 h3 (le_refl _)
    · intro w hw
      have hw2 : w ∈ s.pt_num :: s.writes := hw
      rcases hw2 with _ | ⟨_, hw3⟩
      · right; omega
      · left; exact hw3



theorem SInv_FInv (p : SweepParams) (s : SweepState) (h : SInv p s) : FInv p s := by
  obtain ⟨h1, h2, h3⟩ := h
  exact ⟨h1, by omega, h3⟩

theorem sweep_init_inv (p : SweepParams) (ch0 ch1 : Nat → Int) (a b : Int) :
    SInv p (sweep_init ch0 ch1 a b) := by
  refine ⟨le_refl 1, Or.inl rfl, ?_⟩
  intro i hi
  simp only [sweep_init] at hi
  omega

theorem sweep_loop_inv (p : SweepParams) :
    ∀ (l : List (Int × Int)) (s : SweepState), SInv p s →
    FInv p (sweep_loop p l s) ∧
    (s.num_meas ≤ MAX_IV_MEAS → (sweep_loop p l s).num_meas ≤ MAX_IV_MEAS) ∧
    (∀ w ∈ (sweep_loop p l s).writes,
      w ∈ s.writes ∨ w ≤ 1 ∨ (w : Int) < p.max_iv_points) := by
  intro l
  induction l with
  | nil =>
    intro s hs
    exact ⟨SInv_FInv p s hs, fun h => h, fun w hw => Or.inl hw⟩
  | cons rd rest ih =>
    intro s hs
    have hbody := sweep_body_inv p rd s hs
    have hptbound : ∀ w : Nat, w ≤ s.pt_num → w ≤ 1 ∨ (w : Int) < p.max_iv_points := by
      intro w hw
      rcases hs.2.1 with h' | h'
      · left; omega
      · right
        have : (w : Int) ≤ (s.pt_num : Int) := by exact_mod_cast hw
        omega
    by_cases hguard : s.num_meas < MAX_IV_MEAS
    · cases hb : sweep_body p rd s with
      | inl s' =>
        have heq : sweep_loop p (rd :: rest) s = s' := by
          rw [sweep_loop, if_pos hguard, hb]
        rw [heq]
        obtain ⟨hf, hn, hwr⟩ := hbody.1 s' hb
        refine ⟨hf, fun h => by omega, ?_⟩
        intro w hw
        rcases hwr w hw with h' | h'
        · exact Or.inl h'
        · exact Or.inr (hptbound w h')
      | inr s' =>
        have heq : sweep_loop p (rd :: rest) s = sweep_loop p rest s' := by
          rw [sweep_loop, if_pos hguard, hb]
        rw [heq]
        obtain ⟨hf, hn, hwr⟩ := hbody.2 s' hb
        obtain ⟨ihf, ihn, ihw⟩ := ih s' hf
        refine ⟨ihf, fun h => ihn (by omega), ?_⟩
        intro w hw
        rcases ihw w hw with h' | h'
        · rcases hwr w h' with h'' | h''
          · exact Or.inl h''
          · exact Or.inr (hptbound w h'')
        · exact Or.inr h'
    · have heq : sweep_loop p (rd :: rest) s = s := by
        rw [sweep_loop, if_neg hguard]
      rw [heq]
      exact ⟨SInv_FInv p s hs, fun h => h, fun w hw => Or.inl hw⟩

theorem sweep_run_bounds (p : SweepParams)
    (l : List (Int × Int)) (s : SweepState) (hs : SInv p s) :
    FInv p (sweep_run p l s) ∧
    (s.num_meas ≤ MAX_IV_MEAS → (sweep_run p l s).num_meas ≤ MAX_IV_MEAS) ∧
    (∀ w ∈ (sweep_run p l s).writes,
      w ∈ s.writes ∨ w ≤ 1 ∨ (w : Int) < p.max_iv_points) := by
  obtain ⟨hf, hn, hw⟩ := sweep_loop_inv p l s hs
  rw [sweep_run]
  split
  · obtain ⟨hf1, hf2, hf3⟩ := hf
    refine ⟨⟨hf1, hf2, hf3⟩, hn, ?_⟩
    intro w hww
    have hww2 : w ∈ ((sweep_loop p l s).pt_num - 1) :: (sweep_loop p l s).writes := hww
    rcases hww2 with _ | ⟨_, h3⟩
    · right
      rcases hf2 with h' | h'
      · left; omega
      · by_cases hq : (sweep_loop p l s).pt_num ≤ 1
        · left; omega
        · right
          have hcast : (((sweep_loop p l s).pt_num - 1 : Nat) : Int) <
              ((sweep_loop p l s).pt_num : Int) := by omega
          omega
    · exact hw w h3
  · exact ⟨hf, hn, hw⟩


/-! ### Claim theorems: sweep loop -/

/-- Claim C1: for every sweep and every sequence of ADC readings, when the
sweep loop terminates the retained voltage counts are monotonically
non-decreasing: retained[i].voltage <= retained[i+1].voltage for every
i in [0, pt_num-2]. -/
theorem claim_C1 (p : SweepParams) (ch0 ch1 : Nat → Int) (last_ch0 last_ch1 : Int)
    (readings : List (Int × Int)) (i : Nat)
    (hi : i + 1 < (sweep_run p readings (sweep_init ch0 ch1 last_ch0 last_ch1)).pt_num) :
    (sweep_run p readings (sweep_init ch0 ch1 last_ch0 last_ch1)).ch0 i ≤
      (sweep_run p readings (sweep_init ch0 ch1 last_ch0 last_ch1)).ch0 (i + 1) :=
  (sweep_run_bounds p readings (sweep_init ch0 ch1 last_ch0 last_ch1)
    (sweep_init_inv p ch0 ch1 last_ch0 last_ch1)).1.2.2 i hi

theorem claim_C1_witness :
    (0 + 1 < (sweep_run ⟨1, 1, 0, 20, false, 275, 300⟩ [((100 : Int), (50 : Int))]
        (sweep_init (fun _ => 0) (fun _ => 0) 10 200)).pt_num) ∧
    (sweep_run ⟨1, 1, 0, 20, false, 275, 300⟩ [((100 : Int), (50 : Int))]
        (sweep_init (fun _ => 0) (fun _ => 0) 10 200)).ch0 0 ≤
      (sweep_run ⟨1, 1, 0, 20, false, 275, 300⟩ [((100 : Int), (50 : Int))]
        (sweep_init (fun _ => 0) (fun _ => 0) 10 200)).ch0 (0 + 1) :=
  ⟨by decide, claim_C1 ⟨1, 1, 0, 20, false, 275, 300⟩ (fun _ => 0) (fun _ => 0) 10 200
    [((100 : Int), (50 : Int))] 0 (by decide)⟩

/-- Claim C2: pt_num ≤ MAX_IV_POINTS and num_meas ≤ MAX_IV_MEAS hold for
every sweep (over all reading sequences, hence at every inter-iteration
point), every retained-array write in the sweep loop uses an index below
MAX_IV_POINTS, and the MAX_IV_POINTS config value is clamped to the
compile-time limit. -/
theorem claim_C2 :
    (∀ (cfg : Config) (v : String),
      (process_config_msg cfg ["MAX_IV_POINTS", v]).1.max_iv_points ≤ (MAX_IV_POINTS : Int)) ∧
    ∀ (p : SweepParams) (ch0 ch1 : Nat → Int) (last_ch0 last_ch1 : Int)
      (readings : List (Int × Int)),
      p.max_iv_points ≤ (MAX_IV_POINTS : Int) →
      (sweep_run p readings (sweep_init ch0 ch1 last_ch0 last_ch1)).pt_num ≤ MAX_IV_POINTS ∧
      (sweep_run p readings (sweep_init ch0 ch1 last_ch0 last_ch1)).num_meas ≤ MAX_IV_MEAS ∧
      ∀ w ∈ (sweep_run p readings (sweep_init ch0 ch1 last_ch0 last_ch1)).writes,
        w < MAX_IV_POINTS := by
  constructor
  · intro cfg v
    have h2 : (process_config_msg cfg ["MAX_IV_POINTS", v]).1.max_iv_points =
        if atoi v > (MAX_IV_POINTS : Int) then (MAX_IV_POINTS : Int) else atoi v := rfl
    rw [h2]
    split
    · omega
    · omega
  · intro p ch0 ch1 last_ch0 last_ch1 readings hmax
    obtain ⟨⟨hf1, hf2, _⟩, hn, hw⟩ :=
      sweep_run_bounds p readings (sweep_init ch0 ch1 last_ch0 last_ch1)
        (sweep_init_inv p ch0 ch1 last_ch0 last_ch1)
    have h275 : (MAX_IV_POINTS : Nat) = 275 := rfl
    have h275i : (MAX_IV_POINTS : Int) = 275 := rfl
    refine ⟨?_, ?_, ?_⟩
    · rcases hf2 with h' | h'
      · omega
      · omega
    · refine hn ?_
      show (1 : Nat) ≤ MAX_IV_MEAS
      decide
    · intro w hww
      rcases hw w hww with h' | h' | h'
      · have : w ∈ [0, 0] := h'
        rcases this with _ | ⟨_, h2⟩
        · omega
        · rcases h2 with _ | ⟨_, h3⟩
          · omega
          · cases h3
      · omega
      · omega

theorem claim_C2_witness :
    ((1 : Int) ≤ (MAX_IV_POINTS : Int)) ∧
    (sweep_run ⟨1, 1, 0, 20, false, 1, 300⟩ [((100 : Int), (50 : Int))]
        (sweep_init (fun _ => 0) (fun _ => 0) 10 200)).pt_num ≤ MAX_IV_POINTS ∧
    (sweep_run ⟨1, 1, 0, 20, false, 1, 300⟩ [((100 : Int), (50 : Int))]
        (sweep_init (fun _ => 0) (fun _ => 0) 10 200)).num_meas ≤ MAX_IV_MEAS ∧
    ∀ w ∈ (sweep_run ⟨1, 1, 0, 20, false, 1, 300⟩ [((100 : Int), (50 : Int))]
        (sweep_init (fun _ => 0) (fun _ => 0) 10 200)).writes,
      w < MAX_IV_POINTS :=
  ⟨by decide,
    claim_C2.2 ⟨1, 1, 0, 20, false, 1, 300⟩ (fun _ => 0) (fun _ => 0) 10 200
      [((100 : Int), (50 : Int))] (by decide)⟩

/-- Claim C7 counterexample: with retained point 0 at voltage 100 (current
80) and a first sweep reading of (CH1 = 50, CH0 = 40), the corrector
fires with pt_num = 1, the rewind loop exits immediately, and retained
point 0 is overwritten with the new pair: its voltage becomes 40. -/
theorem claim_C7_counterexample :
    (sweep_init (fun _ => 0) (fun _ => 0) 100 80).ch0 0 = 100 ∧
    (sweep_run ⟨1, 1, 0, 20, false, 275, 300⟩ [((50 : Int), (40 : Int))]
        (sweep_init (fun _ => 0) (fun _ => 0) 100 80)).ch0 0 = 40 := by
  constructor
  · decide
  · decide

/-- Claim C7 (amended): the corrector never writes below index 0, and it
leaves retained point 0 unchanged exactly when the incoming voltage is
at least retained[0].voltage; when the incoming voltage is below every
retained voltage (including point 0's) the rewind bottoms out at
pt_num = 1 and the corrector overwrites point 0 itself. -/
theorem claim_C7_amended (s : SweepState) (h1 : 1 ≤ s.pt_num) (hsort : VoltSorted s)
    (htrig : s.adc_ch0_val < s.ch0 (s.pt_num - 1)) :
    (s.ch0 0 ≤ s.adc_ch0_val →
      (vdc_correct s).ch0 0 = s.ch0 0 ∧ (vdc_correct s).ch1 0 = s.ch1 0) ∧
    (s.adc_ch0_val < s.ch0 0 →
      (vdc_correct s).ch0 0 = s.adc_ch0_val ∧ (vdc_correct s).ch1 0 = s.adc_ch1_val) := by
  constructor
  · intro hge
    have hpt2 : 2 ≤ s.pt_num := by
      by_contra hlt
      have hpt1 : s.pt_num = 1 := by omega
      rw [hpt1] at htrig
      simp only [Nat.sub_self] at htrig
      omega
    have hpn := rewind_ge_two s.ch0 s.adc_ch0_val (by omega) s.pt_num hpt2
    constructor
    · show upd s.ch0 (rewind_pt_num s.ch0 s.adc_ch0_val s.pt_num - 1) s.adc_ch0_val 0 = s.ch0 0
      rw [upd_ne _ _ _ _ (by omega)]
    · show upd s.ch1 (rewind_pt_num s.ch0 s.adc_ch0_val s.pt_num - 1) s.adc_ch1_val 0 = s.ch1 0
      rw [upd_ne _ _ _ _ (by omega)]
  · intro hlt
    have hall : ∀ k, k + 2 ≤ s.pt_num → s.adc_ch0_val < s.ch0 k := by
      intro k hk
      have h0k : s.ch0 0 ≤ s.ch0 k :=
        sortedBelow_trans s.ch0 s.pt_num hsort 0 k (by omega) (by omega)
      omega
    have hpn := rewind_all_below s.ch0 s.adc_ch0_val s.pt_num h1 hall
    constructor
    · show upd s.ch0 (rewind_pt_num s.ch0 s.adc_ch0_val s.pt_num - 1) s.adc_ch0_val 0 = s.adc_ch0_val
      rw [hpn]
      exact upd_same _ _ _
    · show upd s.ch1 (rewind_pt_num s.ch0 s.adc_ch0_val s.pt_num - 1) s.adc_ch1_val 0 = s.adc_ch1_val
      rw [hpn]
      exact upd_same _ _ _

theorem claim_C7_amended_witness :
    (1 ≤ (2 : Nat)) ∧
    ((upd (upd (fun _ => (0 : Int)) 0 10) 1 30) 0 ≤ (20 : Int)) ∧
    ((vdc_correct
        { ch0 := upd (upd (fun _ => (0 : Int)) 0 10) 1 30, ch1 := fun _ => 7,
          pt_num := 2, num_meas := 5, num_discarded_pts := 0, update_prev_ch1 := false,
          adc_ch1_val_prev := 0, adc_ch0_val_prev := 0, adc_ch0_val := 20,
          adc_ch1_val := 9, writes := [] }).ch0 0 =
      (upd (upd (fun _ => (0 : Int)) 0 10) 1 30) 0) := by
  refine ⟨by decide, by decide, ?_⟩
  exact ((claim_C7_amended
    { ch0 := upd (upd (fun _ => (0 : Int)) 0 10) 1 30, ch1 := fun _ => 7,
      pt_num := 2, num_meas := 5, num_discarded_pts := 0, update_prev_ch1 := false,
      adc_ch1_val_prev := 0, adc_ch0_val_prev := 0, adc_ch0_val := 20,
      adc_ch1_val := 9, writes := [] }
    (by decide)
    (by intro i hi
        have hi2 : i + 1 < 2 := hi
        have hi0 : i = 0 := by omega
        subst hi0
        decide)
    (by decide)).1 (by decide)).1

/-! ### Claim theorems: scale computation and minimum Manhattan distance -/

theorem compute_scale_bounds (aw ah isc voc : Nat)
    (hlow : 2 ≤ aw * isc ∨ 2 ≤ ah * voc)
    (hv : aw * isc < 2 ^ 15) (hi : ah * voc < 2 ^ 15) :
    1 ≤ (compute_v_and_i_scale aw ah isc voc).1 ∧
    1 ≤ (compute_v_and_i_scale aw ah isc voc).2 ∧
    (compute_v_and_i_scale aw ah isc voc).1 + (compute_v_and_i_scale aw ah isc voc).2 ≤ 16 := by
  rw [compute_v_and_i_scale]
  split
  · rename_i hgt
    have hb := scale_core_bounds (ah * voc) (aw * isc) (by omega) (by omega) hi
    refine ⟨hb.2.1, hb.1, ?_⟩
    show (scale_core (ah * voc) (aw * isc)).2 + (scale_core (ah * voc) (aw * isc)).1 ≤ 16
    omega
  · rename_i hle
    have hb := scale_core_bounds (aw * isc) (ah * voc) (by omega) (by omega) hv
    refine ⟨hb.1, hb.2.1, ?_⟩
    show (scale_core (aw * isc) (ah * voc)).1 + (scale_core (aw * isc) (ah * voc)).2 ≤ 16
    omega

/-- Claim C4: for every pair of 12-bit counts (Isc, Voc) with Voc > 0 and
the default aspect values (width 3, height 2), compute_v_and_i_scale
returns v_scale ≥ 1, i_scale ≥ 1 and v_scale + i_scale ≤ 16; and
Isc = 4000, Voc = 4000 with aspect_width = 1, aspect_height = 1 yields
v_scale = i_scale = 8. -/
theorem claim_C4 :
    (∀ isc voc : Nat, isc ≤ 4095 → 1 ≤ voc → voc ≤ 4095 →
      1 ≤ (compute_v_and_i_scale ASPECT_WIDTH ASPECT_HEIGHT isc voc).1 ∧
      1 ≤ (compute_v_and_i_scale ASPECT_WIDTH ASPECT_HEIGHT isc voc).2 ∧
      (compute_v_and_i_scale ASPECT_WIDTH ASPECT_HEIGHT isc voc).1 +
        (compute_v_and_i_scale ASPECT_WIDTH ASPECT_HEIGHT isc voc).2 ≤ 16) ∧
    compute_v_and_i_scale 1 1 4000 4000 = (8, 8) := by
  constructor
  · intro isc voc hisc hvoc1 hvoc
    have haw : ASPECT_WIDTH = 3 := rfl
    have hah : ASPECT_HEIGHT = 2 := rfl
    refine compute_scale_bounds ASPECT_WIDTH ASPECT_HEIGHT isc voc ?_ ?_ ?_
    · right; rw [hah]; omega
    · rw [haw]; omega
    · rw [hah]; omega
  · decide

theorem claim_C4_witness :
    ((4000 : Nat) ≤ 4095 ∧ (1 : Nat) ≤ 4000 ∧ (4000 : Nat) ≤ 4095) ∧
    (1 ≤ (compute_v_and_i_scale ASPECT_WIDTH ASPECT_HEIGHT 4000 4000).1 ∧
      1 ≤ (compute_v_and_i_scale ASPECT_WIDTH ASPECT_HEIGHT 4000 4000).2 ∧
      (compute_v_and_i_scale ASPECT_WIDTH ASPECT_HEIGHT 4000 4000).1 +
        (compute_v_and_i_scale ASPECT_WIDTH ASPECT_HEIGHT 4000 4000).2 ≤ 16) :=
  ⟨⟨by decide, by decide, by decide⟩,
    claim_C4.1 4000 4000 (by decide) (by decide) (by decide)⟩

/-- Claim C3 counterexample: at Isc = Voc = 4095 with the default aspect
values, the scales are (v_scale, i_scale) = (6, 4) and the numerator
Isc·i_scale + Voc·v_scale equals 40950, which exceeds 32767 and so does
NOT fit in a signed 16-bit word. -/
theorem claim_C3_counterexample :
    4095 * (compute_v_and_i_scale ASPECT_WIDTH ASPECT_HEIGHT 4095 4095).2 +
      4095 * (compute_v_and_i_scale ASPECT_WIDTH ASPECT_HEIGHT 4095 4095).1 = 40950 ∧
    ¬ (4095 * (compute_v_and_i_scale ASPECT_WIDTH ASPECT_HEIGHT 4095 4095).2 +
        4095 * (compute_v_and_i_scale ASPECT_WIDTH ASPECT_HEIGHT 4095 4095).1 ≤ 32767) :=
  ⟨by decide, by decide⟩

/-- Claim C3 (amended): min_manhattan_distance is the numerator
Isc·i_scale + Voc·v_scale divided by max_iv_points (the newer divisor,
not max_iv_points - 2), and for every 12-bit Isc and Voc the numerator
fits in an UNSIGNED 16-bit word (it is below 2^16 but can exceed 32767),
so the source's (unsigned int) cast makes the division exact. -/
theorem claim_C3 (isc voc : Nat) (hisc : isc ≤ 4095) (hvoc : voc ≤ 4095) :
    isc * (compute_v_and_i_scale ASPECT_WIDTH ASPECT_HEIGHT isc voc).2 +
      voc * (compute_v_and_i_scale ASPECT_WIDTH ASPECT_HEIGHT isc voc).1 < 65536 ∧
    ∀ max_iv_points : Nat,
      min_manhattan_distance isc (compute_v_and_i_scale ASPECT_WIDTH ASPECT_HEIGHT isc voc).2
        voc (compute_v_and_i_scale ASPECT_WIDTH ASPECT_HEIGHT isc voc).1 max_iv_points =
      (isc * (compute_v_and_i_scale ASPECT_WIDTH ASPECT_HEIGHT isc voc).2 +
        voc * (compute_v_and_i_scale ASPECT_WIDTH ASPECT_HEIGHT isc voc).1) / max_iv_points := by
  have hnum : isc * (compute_v_and_i_scale ASPECT_WIDTH ASPECT_HEIGHT isc voc).2 +
      voc * (compute_v_and_i_scale ASPECT_WIDTH ASPECT_HEIGHT isc voc).1 < 65536 := by
    by_cases hz : isc = 0 ∧ voc = 0
    · obtain ⟨hz1, hz2⟩ := hz
      subst hz1
      subst hz2
      decide
    · have hsum : (compute_v_and_i_scale ASPECT_WIDTH ASPECT_HEIGHT isc voc).1 +
          (compute_v_and_i_scale ASPECT_WIDTH ASPECT_HEIGHT isc voc).2 ≤ 16 := by
        have haw : ASPECT_WIDTH = 3 := rfl
        have hah : ASPECT_HEIGHT = 2 := rfl
        refine (compute_scale_bounds ASPECT_WIDTH ASPECT_HEIGHT isc voc ?_ ?_ ?_).2.2
        · rw [haw, hah]; omega
        · rw [haw]; omega
        · rw [hah]; omega
      have h1 : isc * (compute_v_and_i_scale ASPECT_WIDTH ASPECT_HEIGHT isc voc).2 ≤
          4095 * (compute_v_and_i_scale ASPECT_WIDTH ASPECT_HEIGHT isc voc).2 :=
        Nat.mul_le_mul_right _ hisc
      have h2 : voc * (compute_v_and_i_scale ASPECT_WIDTH ASPECT_HEIGHT isc voc).1 ≤
          4095 * (compute_v_and_i_scale ASPECT_WIDTH ASPECT_HEIGHT isc voc).1 :=
        Nat.mul_le_mul_right _ hvoc
      have h3 : 4095 * (compute_v_and_i_scale ASPECT_WIDTH ASPECT_HEIGHT isc voc).2 +
          4095 * (compute_v_and_i_scale ASPECT_WIDTH ASPECT_HEIGHT isc voc).1 =
          4095 * ((compute_v_and_i_scale ASPECT_WIDTH ASPECT_HEIGHT isc voc).1 +
            (compute_v_and_i_scale ASPECT_WIDTH ASPECT_HEIGHT isc voc).2) := by ring
      have h4 : 4095 * ((compute_v_and_i_scale ASPECT_WIDTH ASPECT_HEIGHT isc voc).1 +
          (compute_v_and_i_scale ASPECT_WIDTH ASPECT_HEIGHT isc voc).2) ≤ 4095 * 16 :=
        Nat.mul_le_mul_left _ hsum
      omega
  refine ⟨hnum, ?_⟩
  intro m
  rw [min_manhattan_distance, Nat.mod_eq_of_lt hnum]

theorem claim_C3_witness :
    ((4095 : Nat) ≤ 4095 ∧ (4095 : Nat) ≤ 4095) ∧
    (4095 * (compute_v_and_i_scale ASPECT_WIDTH ASPECT_HEIGHT 4095 4095).2 +
        4095 * (compute_v_and_i_scale ASPECT_WIDTH ASPECT_HEIGHT 4095 4095).1 < 65536) ∧
    min_manhattan_distance 4095 (compute_v_and_i_scale ASPECT_WIDTH ASPECT_HEIGHT 4095 4095).2
        4095 (compute_v_and_i_scale ASPECT_WIDTH ASPECT_HEIGHT 4095 4095).1 275 =
      (4095 * (compute_v_and_i_scale ASPECT_WIDTH ASPECT_HEIGHT 4095 4095).2 +
        4095 * (compute_v_and_i_scale ASPECT_WIDTH ASPECT_HEIGHT 4095 4095).1) / 275 :=
  ⟨⟨by decide, by decide⟩, (claim_C3 4095 4095 (by decide) (by decide)).1,
    (claim_C3 4095 4095 (by decide) (by decide)).2 275⟩

/-! ### Isc polling lemmas -/

theorem isc_poll_body_inl (stream : Nat → Int × Int) (mi sa : Int)
    (st st' : IscPollState) (h : isc_poll_body stream mi sa st = Sum.inl st') :
    st'.poll_timeout = false ∧ st'.broke = true ∧ StableWindow mi sa st' := by
  simp only [isc_poll_body] at h
  split_ifs at h with c1 c2 c3 c4 c5 c6 c7 <;>
    (try (injection h with h; subst h))
  · exact ⟨rfl, rfl, c2, c3, c4.1, c4.2.1, c4.2.2.1, c4.2.2.2.1, c4.2.2.2.2⟩
  · exact ⟨rfl, rfl, c5, c6, c7.1, c7.2.1, c7.2.2.1, c7.2.2.2.1, c7.2.2.2.2⟩

theorem isc_poll_body_inr (stream : Nat → Int × Int) (mi sa : Int)
    (st st' : IscPollState) (h : isc_poll_body stream mi sa st = Sum.inr st') :
    st'.poll_timeout = st.poll_timeout ∧ st'.broke = st.broke := by
  simp only [isc_poll_body] at h
  split_ifs at h with c1 c2 c3 c4 c5 c6 c7 <;>
    (try (injection h with h; subst h)) <;> exact ⟨rfl, rfl⟩

theorem isc_poll_loop_exit (stream : Nat → Int × Int) (mi sa : Int) :
    ∀ (fuel : Nat) (st : IscPollState), st.poll_timeout = true →
      ((isc_poll_loop stream mi sa fuel st).poll_timeout = false →
        (isc_poll_loop stream mi sa fuel st).broke = true ∧
          StableWindow mi sa (isc_poll_loop stream mi sa fuel st)) ∧
      ((isc_poll_loop stream mi sa fuel st).broke = false →
        (isc_poll_loop stream mi sa fuel st).poll_timeout = true) := by
  intro fuel
  induction fuel with
  | zero =>
    intro st hpt
    constructor
    · intro hfalse
      rw [isc_poll_loop] at hfalse
      rw [hpt] at hfalse
      cases hfalse
    · intro _
      exact hpt
  | succ fuel ih =>
    intro st hpt
    cases hb : isc_poll_body stream mi sa st with
    | inl st' =>
      have heq : isc_poll_loop stream mi sa (fuel + 1) st = st' := by
        rw [isc_poll_loop, hb]
      obtain ⟨hp, hbr, hw⟩ := isc_poll_body_inl stream mi sa st st' hb
      rw [heq]
      constructor
      · intro _
        exact ⟨hbr, hw⟩
      · intro hbf
        rw [hbr] at hbf
        cases hbf
    | inr st' =>
      have heq : isc_poll_loop stream mi sa (fuel + 1) st =
          isc_poll_loop stream mi sa fuel st' := by
        rw [isc_poll_loop, hb]
      obtain ⟨hp, _⟩ := isc_poll_body_inr stream mi sa st st' hb
      rw [heq]
      exact ih st' (by rw [hp, hpt])

/-- Claim C5: with Voc at or above MIN_VOC_ADC (so polling is not
skipped) and a non-negative max_isc_poll, the Isc polling exits with
poll_timeout false only when the three-sample window satisfies all five
stability conditions (whence all three window currents exceed the
effective minimum); Isc is then the current of the earliest window
sample and retained point 0 is the last-read (CH0, CH1) pair; a sample
whose current is above the minimum and whose voltage strictly decreases
from the previous one overwrites the prev window entry, preserving
prev_prev; and if the loop exhausts max_isc_poll iterations with no
stability break, poll_timeout remains set. -/
theorem claim_C5 :
    (∀ (stream : Nat → Int × Int) (mi sa mx l0 l1 : Int), 0 ≤ mx →
      ((isc_poll stream mi sa mx false l0 l1).poll_timeout = false →
        StableWindow mi sa (isc_poll stream mi sa mx false l0 l1) ∧
        (isc_poll stream mi sa mx false l0 l1).adc_ch1_val_prev > mi ∧
        (isc_poll stream mi sa mx false l0 l1).adc_ch1_val_prev_prev > mi ∧
        isc_adc_of (isc_poll stream mi sa mx false l0 l1) =
          (isc_poll stream mi sa mx false l0 l1).adc_ch1_val_prev_prev ∧
        retained0_of (isc_poll stream mi sa mx false l0 l1) =
          ((isc_poll stream mi sa mx false l0 l1).adc_ch0_val,
           (isc_poll stream mi sa mx false l0 l1).adc_ch1_val)) ∧
      ((isc_poll stream mi sa mx false l0 l1).broke = false →
        (isc_poll stream mi sa mx false l0 l1).poll_timeout = true)) ∧
    (∀ (stream : Nat → Int × Int) (mi sa : Int) (st : IscPollState),
      (stream st.pos).1 > mi → (stream st.pos).2 < st.adc_ch0_val_prev →
      isc_poll_body stream mi sa st = Sum.inr
        { st with adc_ch1_val := (stream st.pos).1, adc_ch0_val := (stream st.pos).2,
                  pos := st.pos + 1, isc_poll_loops := st.isc_poll_loops + 1,
                  adc_ch0_val_prev := (stream st.pos).2,
                  adc_ch1_val_prev := (stream st.pos).1 }) := by
  constructor
  · intro stream mi sa mx l0 l1 hmx
    have heq : isc_poll stream mi sa mx false l0 l1 =
        isc_poll_loop stream mi sa mx.toNat
          { isc_poll_init l0 l1 with poll_timeout := true } := by
      rw [isc_poll]
      rw [if_neg (show ¬ (mx < 0) by omega)]
      rw [if_neg (show ¬ (false = true) by simp)]
    have hmain := isc_poll_loop_exit stream mi sa mx.toNat
      { isc_poll_init l0 l1 with poll_timeout := true } rfl
    rw [heq]
    constructor
    · intro hfalse
      obtain ⟨_, hw⟩ := hmain.1 hfalse
      obtain ⟨w1, w2, w3, w4, w5, w6, w7⟩ := hw
      refine ⟨⟨w1, w2, w3, w4, w5, w6, w7⟩, by omega, by omega, rfl, rfl⟩
    · exact hmain.2
  · intro stream mi sa st hcur hdec
    simp only [isc_poll_body]
    split_ifs <;>
      first
      | rfl
      | exact absurd (show ((stream st.pos).2 = st.adc_ch0_val_prev ∧
            st.adc_ch0_val_prev = st.adc_ch0_val_prev_prev ∧ st.ssr3_is_active = true)
            by assumption).1 (by omega)
      | exact absurd (show st.adc_ch0_val_prev ≤ (stream st.pos).2 by assumption)
          (not_le.2 hdec)
      | exact absurd hcur (show ¬ ((stream st.pos).1 > mi) by assumption)

theorem claim_C5_witness :
    (0 ≤ (10 : Int)) ∧
    ((isc_poll (fun n => if n = 0 then (((200 : Int), (50 : Int))) else if n = 1 then ((197 : Int), (60 : Int)) else ((195 : Int), (70 : Int))) 100 5 10 false 5 3).poll_timeout = false) ∧
    (StableWindow 100 5 (isc_poll (fun n => if n = 0 then (((200 : Int), (50 : Int))) else if n = 1 then ((197 : Int), (60 : Int)) else ((195 : Int), (70 : Int))) 100 5 10 false 5 3) ∧
     (isc_poll (fun n => if n = 0 then (((200 : Int), (50 : Int))) else if n = 1 then ((197 : Int), (60 : Int)) else ((195 : Int), (70 : Int))) 100 5 10 false 5 3).adc_ch1_val_prev > 100 ∧
     (isc_poll (fun n => if n = 0 then (((200 : Int), (50 : Int))) else if n = 1 then ((197 : Int), (60 : Int)) else ((195 : Int), (70 : Int))) 100 5 10 false 5 3).adc_ch1_val_prev_prev > 100 ∧
     isc_adc_of (isc_poll (fun n => if n = 0 then (((200 : Int), (50 : Int))) else if n = 1 then ((197 : Int), (60 : Int)) else ((195 : Int), (70 : Int))) 100 5 10 false 5 3) =
       (isc_poll (fun n => if n = 0 then (((200 : Int), (50 : Int))) else if n = 1 then ((197 : Int), (60 : Int)) else ((195 : Int), (70 : Int))) 100 5 10 false 5 3).adc_ch1_val_prev_prev ∧
     retained0_of (isc_poll (fun n => if n = 0 then (((200 : Int), (50 : Int))) else if n = 1 then ((197 : Int), (60 : Int)) else ((195 : Int), (70 : Int))) 100 5 10 false 5 3) =
       ((isc_poll (fun n => if n = 0 then (((200 : Int), (50 : Int))) else if n = 1 then ((197 : Int), (60 : Int)) else ((195 : Int), (70 : Int))) 100 5 10 false 5 3).adc_ch0_val,
        (isc_poll (fun n => if n = 0 then (((200 : Int), (50 : Int))) else if n = 1 then ((197 : Int), (60 : Int)) else ((195 : Int), (70 : Int))) 100 5 10 false 5 3).adc_ch1_val)) :=
  ⟨by decide, by decide,
    (claim_C5.1 (fun n => if n = 0 then (((200 : Int), (50 : Int))) else if n = 1 then ((197 : Int), (60 : Int)) else ((195 : Int), (70 : Int))) 100 5 10 5 3 (by decide)).1 (by decide)⟩

/-! ### Claim theorems: Config message processing -/

/-- Claim C10 counterexample: processing Config CLK_DIV with no value
emits the error line with TWO spaces between "got" and the count
(the source prints ", got  "), not the single-spaced line the claim
states, so the emitted lines differ from the claimed ones. -/
theorem claim_C10_counterexample :
    (process_config_msg initial_config ["CLK_DIV"]).2 =
      ["ERROR: Expected 1 args for config type CLK_DIV, got  0",
       "Config not processed"] ∧
    (process_config_msg initial_config ["CLK_DIV"]).2 ≠
      ["ERROR: Expected 1 args for config type CLK_DIV, got 0",
       "Config not processed"] := by
  constructor
  · rfl
  · decide

/-- Claim C10 (amended): processing Config CLK_DIV with no value emits
exactly the line "ERROR: Expected 1 args for config type CLK_DIV,
got  0" (two spaces before the count, as the source prints ", got  ")
followed by "Config not processed", and leaves clk_div and every other
configuration variable unchanged. -/
theorem claim_C10_amended (cfg : Config) :
    process_config_msg cfg ["CLK_DIV"] =
      (cfg, ["ERROR: Expected 1 args for config type CLK_DIV, got  0",
             "Config not processed"]) := rfl

end IVSwinger2

namespace IVSwinger2

theorem voc_poll_loop_append (a b : List (Int × Int)) :
    ∀ st, voc_poll_loop (a ++ b) st = voc_poll_loop b (voc_poll_loop a st) := by
  induction a with
  | nil => intro st; rfl
  | cons hd tl ih =>
    intro st
    obtain ⟨c0, c1⟩ := hd
    rw [List.cons_append, voc_poll_loop, voc_poll_loop]
    exact ih _

theorem voc_poll_loop_writes_mono (l : List (Int × Int)) :
    ∀ st w, w ∈ st.table_writes → w ∈ (voc_poll_loop l st).table_writes := by
  induction l with
  | nil => intro st w hw; exact hw
  | cons hd tl ih =>
    intro st w hw
    obtain ⟨c0, c1⟩ := hd
    rw [voc_poll_loop]
    apply ih
    cases hu : (freq_update st.vals st.cnts c0).2.2 with
    | none => simp only [hu]; exact hw
    | some idx => simp only [hu]; exact List.mem_cons_of_mem idx hw

theorem freq_scan_first_fit (vals cnts : Nat → Int) (v : Int) (k : Nat)
    (hk : k < SIZEOF_ADC_CH0_VALS) (hck : cnts k = 0) :
    ∀ d idx, k - idx = d → idx ≤ k →
      (∀ j, idx ≤ j → j < k → cnts j ≠ 0 ∧ vals j ≠ v) →
      freq_scan vals cnts v idx = some k := by
  intro d
  induction d with
  | zero =>
    intro idx hd hle _
    have : idx = k := by omega
    subst this
    rw [freq_scan, dif_pos hk, if_pos hck]
  | succ d ih =>
    intro idx hd hle hall
    have hik : idx < k := by omega
    have hidx : idx < SIZEOF_ADC_CH0_VALS := by omega
    obtain ⟨hc, hv⟩ := hall idx (le_refl idx) hik
    rw [freq_scan, dif_pos hidx, if_neg hc, if_neg hv]
    exact ih (idx + 1) (by omega) (by omega) (fun j h1 h2 => hall j (by omega) h2)

theorem voc_mode_scan_top (vals cnts : Nat → Int) (h0 : 0 < cnts 0) (h1 : cnts 1 = 0) :
    voc_mode_scan vals cnts 0 0 0 = vals 0 := by
  rw [voc_mode_scan]
  rw [dif_pos (by norm_num [SIZEOF_ADC_CH0_VALS])]
  rw [if_neg (by omega), if_pos (by omega)]
  rw [voc_mode_scan]
  rw [dif_pos (by norm_num [SIZEOF_ADC_CH0_VALS])]
  rw [if_pos h1]

theorem voc_poll_const (v i : Int) :
    ∀ (n : Nat) (st : VocPollState),
      st.vals 0 = v → 0 < st.cnts 0 →
      ¬ (i < st.min_adc_noise_floor) → ¬ (i > st.max_adc_noise_floor) →
      (voc_poll_loop (List.replicate n (v, i)) st).vals 0 = v ∧
      0 < (voc_poll_loop (List.replicate n (v, i)) st).cnts 0 ∧
      (∀ j, j ≠ 0 → (voc_poll_loop (List.replicate n (v, i)) st).vals j = st.vals j ∧
        (voc_poll_loop (List.replicate n (v, i)) st).cnts j = st.cnts j) ∧
      (voc_poll_loop (List.replicate n (v, i)) st).min_adc_noise_floor =
        st.min_adc_noise_floor ∧
      (voc_poll_loop (List.replicate n (v, i)) st).max_adc_noise_floor =
        st.max_adc_noise_floor ∧
      (voc_poll_loop (List.replicate n (v, i)) st).adc_ch0_val =
        (if n = 0 then st.adc_ch0_val else v) ∧
      (voc_poll_loop (List.replicate n (v, i)) st).adc_ch1_val =
        (if n = 0 then st.adc_ch1_val else i) := by
  intro n
  induction n with
  | zero =>
    intro st h1 h2 h3 h4
    exact ⟨h1, h2, fun j _ => ⟨rfl, rfl⟩, rfl, rfl, by simp [voc_poll_loop], by simp [voc_poll_loop]⟩
  | succ n ih =>
    intro st h1 h2 h3 h4
    rw [List.replicate_succ, voc_poll_loop]
    have hscan : freq_scan st.vals st.cnts v 0 = some 0 := by
      rw [freq_scan, dif_pos (by norm_num [SIZEOF_ADC_CH0_VALS])]
      rw [if_neg (by omega), if_pos h1]
    have hupd : freq_update st.vals st.cnts v =
        (st.vals, upd st.cnts 0 (st.cnts 0 + 1), some 0) := by
      simp only [freq_update, hscan]
      rw [if_neg (by omega)]
    rw [hupd]
    have hmin : (if i < st.min_adc_noise_floor then i else st.min_adc_noise_floor) =
        st.min_adc_noise_floor := if_neg h3
    have hmax : (if i > st.max_adc_noise_floor then i else st.max_adc_noise_floor) =
        st.max_adc_noise_floor := if_neg h4
    have hres := ih
      { vals := st.vals, cnts := upd st.cnts 0 (st.cnts 0 + 1),
        min_adc_noise_floor := if i < st.min_adc_noise_floor then i else st.min_adc_noise_floor,
        max_adc_noise_floor := if i > st.max_adc_noise_floor then i else st.max_adc_noise_floor,
        adc_ch0_val := v, adc_ch1_val := i,
        table_writes := 0 :: st.table_writes }
      h1 (by show 0 < upd st.cnts 0 (st.cnts 0 + 1) 0
             rw [upd_same]
             omega)
      (by show ¬ (i < if i < st.min_adc_noise_floor then i else st.min_adc_noise_floor)
          rw [hmin]; exact h3)
      (by show ¬ (i > if i > st.max_adc_noise_floor then i else st.max_adc_noise_floor)
          rw [hmax]; exact h4)
    obtain ⟨r1, r2, r3, r4, r5, r6, r7⟩ := hres
    refine ⟨r1, r2, ?_, ?_, ?_, ?_, ?_⟩
    · intro j hj
      obtain ⟨f1, f2⟩ := r3 j hj
      constructor
      · rw [f1]
      · rw [f2]
        show upd st.cnts 0 (st.cnts 0 + 1) j = st.cnts j
        exact upd_ne _ _ _ _ hj
    · rw [r4]; exact hmin
    · rw [r5]; exact hmax
    · rw [r6]
      split <;> simp
    · rw [r7]
      split <;> simp

end IVSwinger2

namespace IVSwinger2

theorem voc_poll_replicate (v i : Int) (n : Nat) (hi0 : 0 ≤ i) (hi4 : i < 4096) :
    (voc_poll_loop (List.replicate (n + 1) (v, i)) voc_poll_init).vals 0 = v ∧
    0 < (voc_poll_loop (List.replicate (n + 1) (v, i)) voc_poll_init).cnts 0 ∧
    (∀ j, j ≠ 0 → (voc_poll_loop (List.replicate (n + 1) (v, i)) voc_poll_init).cnts j = 0) ∧
    (voc_poll_loop (List.replicate (n + 1) (v, i)) voc_poll_init).min_adc_noise_floor = i ∧
    (voc_poll_loop (List.replicate (n + 1) (v, i)) voc_poll_init).max_adc_noise_floor = i ∧
    (voc_poll_loop (List.replicate (n + 1) (v, i)) voc_poll_init).adc_ch0_val = v ∧
    (voc_poll_loop (List.replicate (n + 1) (v, i)) voc_poll_init).adc_ch1_val = i := by
  rw [List.replicate_succ, voc_poll_loop]
  have hscan : freq_scan voc_poll_init.vals voc_poll_init.cnts v 0 = some 0 := by
    rw [freq_scan, dif_pos (by norm_num [SIZEOF_ADC_CH0_VALS])]
    rw [if_pos (show voc_poll_init.cnts 0 = 0 from rfl)]
  have hupd : freq_update voc_poll_init.vals voc_poll_init.cnts v =
      (upd voc_poll_init.vals 0 v, upd voc_poll_init.cnts 0 1, some 0) := by
    simp only [freq_update, hscan]
    rw [if_pos (show voc_poll_init.cnts 0 = 0 from rfl)]
  rw [hupd]
  have hminc : (if i < voc_poll_init.min_adc_noise_floor then i
      else voc_poll_init.min_adc_noise_floor) = i := by
    rw [if_pos (by show i < ADC_MAX; rw [show ADC_MAX = 4096 from rfl]; omega)]
  have hmaxc : (if i > voc_poll_init.max_adc_noise_floor then i
      else voc_poll_init.max_adc_noise_floor) = i := by
    by_cases h : 0 < i
    · rw [if_pos (by show i > (0 : Int); omega)]
    · rw [if_neg (by show ¬ (i > (0 : Int)); omega)]
      show (0 : Int) = i
      omega
  have hst := voc_poll_const v i n
    { vals := upd voc_poll_init.vals 0 v, cnts := upd voc_poll_init.cnts 0 1,
      min_adc_noise_floor := if i < voc_poll_init.min_adc_noise_floor then i
        else voc_poll_init.min_adc_noise_floor,
      max_adc_noise_floor := if i > voc_poll_init.max_adc_noise_floor then i
        else voc_poll_init.max_adc_noise_floor,
      adc_ch0_val := v, adc_ch1_val := i,
      table_writes := 0 :: voc_poll_init.table_writes }
    (by show upd voc_poll_init.vals 0 v 0 = v; exact upd_same _ _ _)
    (by show 0 < upd voc_poll_init.cnts 0 1 0
        rw [upd_same]
        omega)
    (by show ¬ (i < if i < voc_poll_init.min_adc_noise_floor then i
          else voc_poll_init.min_adc_noise_floor)
        rw [hminc]
        omega)
    (by show ¬ (i > if i > voc_poll_init.max_adc_noise_floor then i
          else voc_poll_init.max_adc_noise_floor)
        rw [hmaxc]
        omega)
  obtain ⟨r1, r2, r3, r4, r5, r6, r7⟩ := hst
  refine ⟨r1, r2, ?_, ?_, ?_, ?_, ?_⟩
  · intro j hj
    rw [(r3 j hj).2]
    show upd voc_poll_init.cnts 0 1 j = 0
    rw [upd_ne _ _ _ _ hj]
    rfl
  · rw [r4]
    exact hminc
  · rw [r5]
    exact hmaxc
  · rw [r6]
    split <;> rfl
  · rw [r7]
    split <;> rfl

end IVSwinger2

namespace IVSwinger2

theorem voc_poll_distinct :
    ∀ t : Nat, t ≤ 276 →
      (∀ j, j < t →
        (voc_poll_loop ((List.range t).map (fun (k : Nat) => (((k : Int) + 1), (0 : Int))))
          voc_poll_init).vals j = (j : Int) + 1 ∧
        (voc_poll_loop ((List.range t).map (fun (k : Nat) => (((k : Int) + 1), (0 : Int))))
          voc_poll_init).cnts j = 1) ∧
      (∀ j, t ≤ j →
        (voc_poll_loop ((List.range t).map (fun (k : Nat) => (((k : Int) + 1), (0 : Int))))
          voc_poll_init).cnts j = 0) ∧
      (1 ≤ t → (t - 1) ∈
        (voc_poll_loop ((List.range t).map (fun (k : Nat) => (((k : Int) + 1), (0 : Int))))
          voc_poll_init).table_writes) := by
  intro t
  induction t with
  | zero =>
    intro _
    refine ⟨fun j hj => absurd hj (by omega), fun j _ => rfl, fun h => absurd h (by omega)⟩
  | succ t ih =>
    intro ht
    obtain ⟨ih1, ih2, ih3⟩ := ih (by omega)
    rw [List.range_succ, List.map_append, voc_poll_loop_append]
    set r := voc_poll_loop ((List.range t).map (fun (k : Nat) => (((k : Int) + 1), (0 : Int))))
      voc_poll_init with hr
    show (∀ j, j < t + 1 → (voc_poll_loop [((t : Int) + 1, 0)] r).vals j = (j : Int) + 1 ∧
        (voc_poll_loop [((t : Int) + 1, 0)] r).cnts j = 1) ∧
      (∀ j, t + 1 ≤ j → (voc_poll_loop [((t : Int) + 1, 0)] r).cnts j = 0) ∧
      (1 ≤ t + 1 → (t + 1 - 1) ∈ (voc_poll_loop [((t : Int) + 1, 0)] r).table_writes)
    have hscan : freq_scan r.vals r.cnts ((t : Int) + 1) 0 = some t := by
      refine freq_scan_first_fit r.vals r.cnts ((t : Int) + 1) t
        (by show t < 550; omega) (ih2 t (le_refl t)) t 0 (by omega) (by omega) ?_
      intro j _ hj
      obtain ⟨hv, hc⟩ := ih1 j hj
      constructor
      · rw [hc]; omega
      · rw [hv]
        intro he
        have : (j : Int) = (t : Int) := by omega
        have : j = t := by exact_mod_cast this
        omega
    have hupd : freq_update r.vals r.cnts ((t : Int) + 1) =
        (upd r.vals t ((t : Int) + 1), upd r.cnts t 1, some t) := by
      simp only [freq_update, hscan]
      rw [if_pos (ih2 t (le_refl t))]
    rw [voc_poll_loop, hupd, voc_poll_loop]
    refine ⟨?_, ?_, ?_⟩
    · intro j hj
      by_cases hjt : j = t
      · subst hjt
        constructor
        · show upd r.vals j ((j : Int) + 1) j = (j : Int) + 1
          exact upd_same _ _ _
        · show upd r.cnts j 1 j = 1
          exact upd_same _ _ _
      · have hjlt : j < t := by omega
        obtain ⟨hv, hc⟩ := ih1 j hjlt
        constructor
        · show upd r.vals t ((t : Int) + 1) j = (j : Int) + 1
          rw [upd_ne _ _ _ _ hjt]
          exact hv
        · show upd r.cnts t 1 j = 1
          rw [upd_ne _ _ _ _ hjt]
          exact hc
    · intro j hj
      show upd r.cnts t 1 j = 0
      rw [upd_ne _ _ _ _ (by omega)]
      exact ih2 j (by omega)
    · intro _
      show (t + 1 - 1) ∈ t :: r.table_writes
      have : t + 1 - 1 = t := by omega
      rw [this]
      exact List.mem_cons_self t r.table_writes

theorem isc_poll_skip (stream : Nat → Int × Int) (mi sa mx l0 l1 : Int)
    (hmx : ¬ (mx < 0)) :
    isc_poll stream mi sa mx true l0 l1 = isc_poll_init l0 l1 := by
  rw [isc_poll]
  rw [if_neg hmx]
  rw [if_pos rfl]

theorem sweep_run_break_now (p : SweepParams) (rd : Int × Int)
    (rest : List (Int × Int)) (s : SweepState)
    (hn : s.num_meas < MAX_IV_MEAS)
    (hupd : s.update_prev_ch1 = false)
    (hdone : rd.1 < p.done_ch1_adc) (hdelta : s.adc_ch1_val_prev - rd.1 < 3) :
    sweep_run p (rd :: rest) s =
      { s with num_meas := s.num_meas + 1, adc_ch1_val := rd.1, adc_ch0_val := rd.2,
               ch0 := upd s.ch0 s.pt_num rd.2, writes := s.pt_num :: s.writes,
               adc_ch0_val_prev := rd.2, adc_ch1_val_prev := rd.1 } := by
  have hbody : sweep_body p rd s = Sum.inl
      { s with num_meas := s.num_meas + 1, adc_ch1_val := rd.1, adc_ch0_val := rd.2,
               ch0 := upd s.ch0 s.pt_num rd.2, writes := s.pt_num :: s.writes,
               adc_ch0_val_prev := rd.2, adc_ch1_val_prev := rd.1 } := by
    simp only [sweep_body]
    rw [if_neg (show ¬ (s.update_prev_ch1 = true) by rw [hupd]; simp)]
    rw [if_pos (show rd.1 < p.done_ch1_adc ∧ s.adc_ch1_val_prev - rd.1 < 3 from
      ⟨hdone, hdelta⟩)]
  rw [sweep_run, sweep_loop, if_pos hn, hbody]
  rw [if_neg (show ¬ (s.update_prev_ch1 = true) by rw [hupd]; simp)]

end IVSwinger2

namespace IVSwinger2

theorem run_sweep_skip (cfg : Config) (vr : List (Int × Int)) (istream : Nat → Int × Int)
    (sr : List (Int × Int)) (hmx : ¬ (cfg.max_isc_poll < 0))
    (hvoc : voc_mode_scan (voc_poll_loop vr voc_poll_init).vals
      (voc_poll_loop vr voc_poll_init).cnts 0 0 0 < MIN_VOC_ADC) :
    run_sweep cfg vr istream sr =
      { voc_adc := 0,
        adc_noise_floor := (voc_poll_loop vr voc_poll_init).min_adc_noise_floor,
        max_adc_noise_floor := (voc_poll_loop vr voc_poll_init).max_adc_noise_floor,
        relay_activated := false, skip_isc_poll := true,
        poll_timeout := false, isc_poll_loops := 0, isc_adc := 0,
        v_scale := (compute_v_and_i_scale cfg.aspect_width.toNat cfg.aspect_height.toNat 0 0).1,
        i_scale := (compute_v_and_i_scale cfg.aspect_width.toNat cfg.aspect_height.toNat 0 0).2,
        min_manhattan_dist := min_manhattan_distance 0
          (compute_v_and_i_scale cfg.aspect_width.toNat cfg.aspect_height.toNat 0 0).2 0
          (compute_v_and_i_scale cfg.aspect_width.toNat cfg.aspect_height.toNat 0 0).1
          cfg.max_iv_points.toNat,
        pt_num := (sweep_run
          { v_scale := (compute_v_and_i_scale cfg.aspect_width.toNat cfg.aspect_height.toNat 0 0).1,
            i_scale := (compute_v_and_i_scale cfg.aspect_width.toNat cfg.aspect_height.toNat 0 0).2,
            min_manhattan_dist := min_manhattan_distance 0
              (compute_v_and_i_scale cfg.aspect_width.toNat cfg.aspect_height.toNat 0 0).2 0
              (compute_v_and_i_scale cfg.aspect_width.toNat cfg.aspect_height.toNat 0 0).1
              cfg.max_iv_points.toNat,
            done_ch1_adc := done_ch1_adc_of (voc_poll_loop vr voc_poll_init).min_adc_noise_floor,
            poll_timeout := false, max_iv_points := cfg.max_iv_points,
            max_discards := cfg.max_discards } sr
          (sweep_init (voc_poll_loop vr voc_poll_init).vals
            (voc_poll_loop vr voc_poll_init).cnts
            (voc_poll_loop vr voc_poll_init).adc_ch0_val
            (voc_poll_loop vr voc_poll_init).adc_ch1_val)).pt_num,
        num_meas := (sweep_run
          { v_scale := (compute_v_and_i_scale cfg.aspect_width.toNat cfg.aspect_height.toNat 0 0).1,
            i_scale := (compute_v_and_i_scale cfg.aspect_width.toNat cfg.aspect_height.toNat 0 0).2,
            min_manhattan_dist := min_manhattan_distance 0
              (compute_v_and_i_scale cfg.aspect_width.toNat cfg.aspect_height.toNat 0 0).2 0
              (compute_v_and_i_scale cfg.aspect_width.toNat cfg.aspect_height.toNat 0 0).1
              cfg.max_iv_points.toNat,
            done_ch1_adc := done_ch1_adc_of (voc_poll_loop vr voc_poll_init).min_adc_noise_floor,
            poll_timeout := false, max_iv_points := cfg.max_iv_points,
            max_discards := cfg.max_discards } sr
          (sweep_init (voc_poll_loop vr voc_poll_init).vals
            (voc_poll_loop vr voc_poll_init).cnts
            (voc_poll_loop vr voc_poll_init).adc_ch0_val
            (voc_poll_loop vr voc_poll_init).adc_ch1_val)).num_meas,
        ch0 := (sweep_run
          { v_scale := (compute_v_and_i_scale cfg.aspect_width.toNat cfg.aspect_height.toNat 0 0).1,
            i_scale := (compute_v_and_i_scale cfg.aspect_width.toNat cfg.aspect_height.toNat 0 0).2,
            min_manhattan_dist := min_manhattan_distance 0
              (compute_v_and_i_scale cfg.aspect_width.toNat cfg.aspect_height.toNat 0 0).2 0
              (compute_v_and_i_scale cfg.aspect_width.toNat cfg.aspect_height.toNat 0 0).1
              cfg.max_iv_points.toNat,
            done_ch1_adc := done_ch1_adc_of (voc_poll_loop vr voc_poll_init).min_adc_noise_floor,
            poll_timeout := false, max_iv_points := cfg.max_iv_points,
            max_discards := cfg.max_discards } sr
          (sweep_init (voc_poll_loop vr voc_poll_init).vals
            (voc_poll_loop vr voc_poll_init).cnts
            (voc_poll_loop vr voc_poll_init).adc_ch0_val
            (voc_poll_loop vr voc_poll_init).adc_ch1_val)).ch0,
        ch1 := (sweep_run
          { v_scale := (compute_v_and_i_scale cfg.aspect_width.toNat cfg.aspect_height.toNat 0 0).1,
            i_scale := (compute_v_and_i_scale cfg.aspect_width.toNat cfg.aspect_height.toNat 0 0).2,
            min_manhattan_dist := min_manhattan_distance 0
              (compute_v_and_i_scale cfg.aspect_width.toNat cfg.aspect_height.toNat 0 0).2 0
              (compute_v_and_i_scale cfg.aspect_width.toNat cfg.aspect_height.toNat 0 0).1
              cfg.max_iv_points.toNat,
            done_ch1_adc := done_ch1_adc_of (voc_poll_loop vr voc_poll_init).min_adc_noise_floor,
            poll_timeout := false, max_iv_points := cfg.max_iv_points,
            max_discards := cfg.max_discards } sr
          (sweep_init (voc_poll_loop vr voc_poll_init).vals
            (voc_poll_loop vr voc_poll_init).cnts
            (voc_poll_loop vr voc_poll_init).adc_ch0_val
            (voc_poll_loop vr voc_poll_init).adc_ch1_val)).ch1,
        report :=
          ["CH1 ADC noise floor (min):" ++
             toString (voc_poll_loop vr voc_poll_init).min_adc_noise_floor,
           "CH1 ADC noise floor (max):" ++
             toString (voc_poll_loop vr voc_poll_init).max_adc_noise_floor,
           "Isc CH0:0 CH1:0"] ++
          ((List.range (sweep_run
            { v_scale := (compute_v_and_i_scale cfg.aspect_width.toNat cfg.aspect_height.toNat 0 0).1,
              i_scale := (compute_v_and_i_scale cfg.aspect_width.toNat cfg.aspect_height.toNat 0 0).2,
              min_manhattan_dist := min_manhattan_distance 0
                (compute_v_and_i_scale cfg.aspect_width.toNat cfg.aspect_height.toNat 0 0).2 0
                (compute_v_and_i_scale cfg.aspect_width.toNat cfg.aspect_height.toNat 0 0).1
                cfg.max_iv_points.toNat,
              done_ch1_adc := done_ch1_adc_of (voc_poll_loop vr voc_poll_init).min_adc_noise_floor,
              poll_timeout := false, max_iv_points := cfg.max_iv_points,
              max_discards := cfg.max_discards } sr
            (sweep_init (voc_poll_loop vr voc_poll_init).vals
              (voc_poll_loop vr voc_poll_init).cnts
              (voc_poll_loop vr voc_poll_init).adc_ch0_val
              (voc_poll_loop vr voc_poll_init).adc_ch1_val)).pt_num).map fun ii =>
            toString ii ++ " CH0:" ++ toString ((sweep_run
              { v_scale := (compute_v_and_i_scale cfg.aspect_width.toNat cfg.aspect_height.toNat 0 0).1,
                i_scale := (compute_v_and_i_scale cfg.aspect_width.toNat cfg.aspect_height.toNat 0 0).2,
                min_manhattan_dist := min_manhattan_distance 0
                  (compute_v_and_i_scale cfg.aspect_width.toNat cfg.aspect_height.toNat 0 0).2 0
                  (compute_v_and_i_scale cfg.aspect_width.toNat cfg.aspect_height.toNat 0 0).1
                  cfg.max_iv_points.toNat,
                done_ch1_adc := done_ch1_adc_of (voc_poll_loop vr voc_poll_init).min_adc_noise_floor,
                poll_timeout := false, max_iv_points := cfg.max_iv_points,
                max_discards := cfg.max_discards } sr
              (sweep_init (voc_poll_loop vr voc_poll_init).vals
                (voc_poll_loop vr voc_poll_init).cnts
                (voc_poll_loop vr voc_poll_init).adc_ch0_val
                (voc_poll_loop vr voc_poll_init).adc_ch1_val)).ch0 ii) ++ " CH1:" ++
              toString ((sweep_run
              { v_scale := (compute_v_and_i_scale cfg.aspect_width.toNat cfg.aspect_height.toNat 0 0).1,
                i_scale := (compute_v_and_i_scale cfg.aspect_width.toNat cfg.aspect_height.toNat 0 0).2,
                min_manhattan_dist := min_manhattan_distance 0
                  (compute_v_and_i_scale cfg.aspect_width.toNat cfg.aspect_height.toNat 0 0).2 0
                  (compute_v_and_i_scale cfg.aspect_width.toNat cfg.aspect_height.toNat 0 0).1
                  cfg.max_iv_points.toNat,
                done_ch1_adc := done_ch1_adc_of (voc_poll_loop vr voc_poll_init).min_adc_noise_floor,
                poll_timeout := false, max_iv_points := cfg.max_iv_points,
                max_discards := cfg.max_discards } sr
              (sweep_init (voc_poll_loop vr voc_poll_init).vals
                (voc_poll_loop vr voc_poll_init).cnts
                (voc_poll_loop vr voc_poll_init).adc_ch0_val
                (voc_poll_loop vr voc_poll_init).adc_ch1_val)).ch1 ii)) ++
          ["Voc CH0:0 CH1:" ++
             toString (voc_poll_loop vr voc_poll_init).min_adc_noise_floor] } := by
  simp only [run_sweep]
  simp only [if_pos hvoc]
  rw [isc_poll_skip istream _ _ _ _ _ hmx]
  rfl

end IVSwinger2

namespace IVSwinger2

/-- Claim C9 (amended): when the Voc estimate after polling is below
MIN_VOC_ADC the firmware sets Voc to 0, never activates the relay and
skips Isc polling (zero polling iterations, Isc = 0), but poll_timeout
stays FALSE (the skip branch does not set it), the sweep loop still runs
and retains at least one point, and the report carries pt_num middle
point lines (at least one), the line "Isc CH0:0 CH1:0", and a final
"Voc CH0:0 CH1:<noise floor>" line. -/
theorem claim_C9_amended (cfg : Config) (vr : List (Int × Int))
    (istream : Nat → Int × Int) (sr : List (Int × Int))
    (hmx : ¬ (cfg.max_isc_poll < 0))
    (hvoc : voc_mode_scan (voc_poll_loop vr voc_poll_init).vals
      (voc_poll_loop vr voc_poll_init).cnts 0 0 0 < MIN_VOC_ADC) :
    (run_sweep cfg vr istream sr).voc_adc = 0 ∧
    (run_sweep cfg vr istream sr).relay_activated = false ∧
    (run_sweep cfg vr istream sr).skip_isc_poll = true ∧
    (run_sweep cfg vr istream sr).isc_poll_loops = 0 ∧
    (run_sweep cfg vr istream sr).poll_timeout = false ∧
    (run_sweep cfg vr istream sr).isc_adc = 0 ∧
    1 ≤ (run_sweep cfg vr istream sr).pt_num ∧
    (run_sweep cfg vr istream sr).report.length = (run_sweep cfg vr istream sr).pt_num + 4 ∧
    "Isc CH0:0 CH1:0" ∈ (run_sweep cfg vr istream sr).report ∧
    ("Voc CH0:0 CH1:" ++ toString (voc_poll_loop vr voc_poll_init).min_adc_noise_floor) ∈
      (run_sweep cfg vr istream sr).report := by
  rw [run_sweep_skip cfg vr istream sr hmx hvoc]
  have hfin : 1 ≤ (sweep_run
      { v_scale := (compute_v_and_i_scale cfg.aspect_width.toNat cfg.aspect_height.toNat 0 0).1,
        i_scale := (compute_v_and_i_scale cfg.aspect_width.toNat cfg.aspect_height.toNat 0 0).2,
        min_manhattan_dist := min_manhattan_distance 0
          (compute_v_and_i_scale cfg.aspect_width.toNat cfg.aspect_height.toNat 0 0).2 0
          (compute_v_and_i_scale cfg.aspect_width.toNat cfg.aspect_height.toNat 0 0).1
          cfg.max_iv_points.toNat,
        done_ch1_adc := done_ch1_adc_of (voc_poll_loop vr voc_poll_init).min_adc_noise_floor,
        poll_timeout := false, max_iv_points := cfg.max_iv_points,
        max_discards := cfg.max_discards } sr
      (sweep_init (voc_poll_loop vr voc_poll_init).vals
        (voc_poll_loop vr voc_poll_init).cnts
        (voc_poll_loop vr voc_poll_init).adc_ch0_val
        (voc_poll_loop vr voc_poll_init).adc_ch1_val)).pt_num :=
    (sweep_run_bounds _ sr _ (sweep_init_inv _ _ _ _ _)).1.1
  refine ⟨rfl, rfl, rfl, rfl, rfl, rfl, hfin, ?_, ?_, ?_⟩
  · simp only [List.length_append, List.length_map, List.length_range, List.length_cons,
      List.length_nil]
    omega
  · apply List.mem_append_left
    apply List.mem_append_left
    simp
  · apply List.mem_append_right
    simp
end IVSwinger2

namespace IVSwinger2

theorem voc_rep_50_facts :
    (voc_poll_loop (List.replicate 400 ((5 : Int), (0 : Int))) voc_poll_init).vals 0 = 5 ∧
    0 < (voc_poll_loop (List.replicate 400 ((5 : Int), (0 : Int))) voc_poll_init).cnts 0 ∧
    (voc_poll_loop (List.replicate 400 ((5 : Int), (0 : Int))) voc_poll_init).cnts 1 = 0 ∧
    (voc_poll_loop (List.replicate 400 ((5 : Int), (0 : Int)))
      voc_poll_init).min_adc_noise_floor = 0 ∧
    (voc_poll_loop (List.replicate 400 ((5 : Int), (0 : Int))) voc_poll_init).adc_ch1_val
      = 0 := by
  have h400 : (400 : Nat) = 399 + 1 := by norm_num
  rw [h400]
  obtain ⟨h1, h2, h3, h4, _h5, _h6, h7⟩ :=
    voc_poll_replicate 5 0 399 (by norm_num) (by norm_num)
  exact ⟨h1, h2, h3 1 (by omega), h4, h7⟩

theorem voc_scan_low :
    voc_mode_scan (voc_poll_loop (List.replicate 400 ((5 : Int), (0 : Int))) voc_poll_init).vals
      (voc_poll_loop (List.replicate 400 ((5 : Int), (0 : Int))) voc_poll_init).cnts 0 0 0 <
      MIN_VOC_ADC := by
  obtain ⟨h1, h2, h3, _, _⟩ := voc_rep_50_facts
  rw [voc_mode_scan_top _ _ h2 h3, h1]
  decide

/-- Claim C9 counterexample: with all 400 Voc-polling readings equal to
(CH0 = 5, CH1 = 0) the Voc estimate is 5 < MIN_VOC_ADC, so the
not-connected path is taken; yet poll_timeout remains false (the claim
said the sweep loop exits due to poll_timeout) and the final report has
five lines, i.e. exactly one middle point line (the claim said zero). -/
theorem claim_C9_counterexample :
    (run_sweep initial_config (List.replicate 400 ((5 : Int), (0 : Int)))
      (fun _ => ((0 : Int), (0 : Int))) [((0 : Int), (0 : Int))]).poll_timeout = false ∧
    (run_sweep initial_config (List.replicate 400 ((5 : Int), (0 : Int)))
      (fun _ => ((0 : Int), (0 : Int))) [((0 : Int), (0 : Int))]).pt_num = 1 ∧
    (run_sweep initial_config (List.replicate 400 ((5 : Int), (0 : Int)))
      (fun _ => ((0 : Int), (0 : Int))) [((0 : Int), (0 : Int))]).report.length = 5 := by
  obtain ⟨hv0, hc0, hc1, hmin, ha1⟩ := voc_rep_50_facts
  rw [run_sweep_skip initial_config (List.replicate 400 ((5 : Int), (0 : Int)))
    (fun _ => ((0 : Int), (0 : Int))) [((0 : Int), (0 : Int))] (by decide) voc_scan_low]
  revert hv0 hc0 hc1 hmin ha1
  generalize voc_poll_loop (List.replicate 400 ((5 : Int), (0 : Int))) voc_poll_init = vp
  intro hv0 hc0 hc1 hmin ha1
  set S := sweep_init vp.vals vp.cnts vp.adc_ch0_val vp.adc_ch1_val with hS
  set P : SweepParams :=
    { v_scale := ((compute_v_and_i_scale initial_config.aspect_width.toNat
        initial_config.aspect_height.toNat 0 0).1 : Int),
      i_scale := ((compute_v_and_i_scale initial_config.aspect_width.toNat
        initial_config.aspect_height.toNat 0 0).2 : Int),
      min_manhattan_dist := ((min_manhattan_distance 0
        (compute_v_and_i_scale initial_config.aspect_width.toNat
          initial_config.aspect_height.toNat 0 0).2 0
        (compute_v_and_i_scale initial_config.aspect_width.toNat
          initial_config.aspect_height.toNat 0 0).1
        initial_config.max_iv_points.toNat : Nat) : Int),
      done_ch1_adc := done_ch1_adc_of vp.min_adc_noise_floor,
      poll_timeout := false, max_iv_points := initial_config.max_iv_points,
      max_discards := initial_config.max_discards } with hP
  have hbrk := sweep_run_break_now P ((0 : Int), (0 : Int)) [] S
    (by show (1 : Nat) < MAX_IV_MEAS; decide)
    rfl
    (by show (0 : Int) < done_ch1_adc_of vp.min_adc_noise_floor
        rw [hmin]; decide)
    (by show upd vp.cnts 0 vp.adc_ch1_val 0 - (0 : Int) < 3
        rw [upd_same, ha1]; decide)
  have hpt : (sweep_run P [((0 : Int), (0 : Int))] S).pt_num = 1 := by
    rw [hbrk]
    rfl
  refine ⟨rfl, hpt, ?_⟩
  show (_ ++ (List.range (sweep_run P [((0 : Int), (0 : Int))] S).pt_num).map _ ++ _).length = 5
  rw [hpt]
  simp only [List.length_append, List.length_map, List.length_range, List.length_cons,
    List.length_nil]

theorem claim_C9_amended_witness :
    ¬ (initial_config.max_isc_poll < 0) ∧
    voc_mode_scan
        (voc_poll_loop (List.replicate 400 ((5 : Int), (0 : Int))) voc_poll_init).vals
        (voc_poll_loop (List.replicate 400 ((5 : Int), (0 : Int))) voc_poll_init).cnts 0 0 0 <
      MIN_VOC_ADC ∧
    ((run_sweep initial_config (List.replicate 400 ((5 : Int), (0 : Int)))
        (fun _ => ((0 : Int), (0 : Int))) [((0 : Int), (0 : Int))]).voc_adc = 0 ∧
      (run_sweep initial_config (List.replicate 400 ((5 : Int), (0 : Int)))
        (fun _ => ((0 : Int), (0 : Int))) [((0 : Int), (0 : Int))]).relay_activated = false ∧
      (run_sweep initial_config (List.replicate 400 ((5 : Int), (0 : Int)))
        (fun _ => ((0 : Int), (0 : Int))) [((0 : Int), (0 : Int))]).skip_isc_poll = true ∧
      (run_sweep initial_config (List.replicate 400 ((5 : Int), (0 : Int)))
        (fun _ => ((0 : Int), (0 : Int))) [((0 : Int), (0 : Int))]).isc_poll_loops = 0 ∧
      (run_sweep initial_config (List.replicate 400 ((5 : Int), (0 : Int)))
        (fun _ => ((0 : Int), (0 : Int))) [((0 : Int), (0 : Int))]).poll_timeout = false ∧
      (run_sweep initial_config (List.replicate 400 ((5 : Int), (0 : Int)))
        (fun _ => ((0 : Int), (0 : Int))) [((0 : Int), (0 : Int))]).isc_adc = 0 ∧
      1 ≤ (run_sweep initial_config (List.replicate 400 ((5 : Int), (0 : Int)))
        (fun _ => ((0 : Int), (0 : Int))) [((0 : Int), (0 : Int))]).pt_num ∧
      (run_sweep initial_config (List.replicate 400 ((5 : Int), (0 : Int)))
          (fun _ => ((0 : Int), (0 : Int))) [((0 : Int), (0 : Int))]).report.length =
        (run_sweep initial_config (List.replicate 400 ((5 : Int), (0 : Int)))
          (fun _ => ((0 : Int), (0 : Int))) [((0 : Int), (0 : Int))]).pt_num + 4 ∧
      "Isc CH0:0 CH1:0" ∈ (run_sweep initial_config (List.replicate 400 ((5 : Int), (0 : Int)))
        (fun _ => ((0 : Int), (0 : Int))) [((0 : Int), (0 : Int))]).report ∧
      ("Voc CH0:0 CH1:" ++ toString (voc_poll_loop (List.replicate 400 ((5 : Int), (0 : Int)))
          voc_poll_init).min_adc_noise_floor) ∈
        (run_sweep initial_config (List.replicate 400 ((5 : Int), (0 : Int)))
          (fun _ => ((0 : Int), (0 : Int))) [((0 : Int), (0 : Int))]).report) :=
  ⟨by decide, voc_scan_low,
    claim_C9_amended initial_config (List.replicate 400 ((5 : Int), (0 : Int)))
      (fun _ => ((0 : Int), (0 : Int))) [((0 : Int), (0 : Int))] (by decide) voc_scan_low⟩

theorem voc_rep_53_floor :
    adc_noise_floor_of (List.replicate 400 ((5 : Int), (3 : Int))) = 3 := by
  show (voc_poll_loop (List.replicate 400 ((5 : Int), (3 : Int)))
    voc_poll_init).min_adc_noise_floor = 3
  have h400 : (400 : Nat) = 399 + 1 := by norm_num
  rw [h400]
  exact (voc_poll_replicate 5 3 399 (by norm_num) (by norm_num)).2.2.2.1

/-- Claim C6: FALSE of the code.  Line 513 executes
`min_isc_adc += adc_noise_floor` on the global config variable every
sweep and nothing resets it, so with two identical sweeps whose Voc
polling sees a CH1 noise floor of 3 (and no Config message in between),
the threshold used during the second sweep's Isc polling is
100 + 3 + 3 = 106, not the claimed MIN_ISC_ADC + that sweep's own noise
floor = 103: the increment accumulates across sweeps. -/
theorem claim_C6 :
    min_isc_adc_after_sweeps MIN_ISC_ADC
        [List.replicate 400 ((5 : Int), (3 : Int)),
         List.replicate 400 ((5 : Int), (3 : Int))] = 106 ∧
    MIN_ISC_ADC + adc_noise_floor_of (List.replicate 400 ((5 : Int), (3 : Int))) = 103 ∧
    min_isc_adc_after_sweeps MIN_ISC_ADC
        [List.replicate 400 ((5 : Int), (3 : Int)),
         List.replicate 400 ((5 : Int), (3 : Int))] ≠
      MIN_ISC_ADC + adc_noise_floor_of (List.replicate 400 ((5 : Int), (3 : Int))) := by
  have h1 : min_isc_adc_after_sweeps MIN_ISC_ADC
      [List.replicate 400 ((5 : Int), (3 : Int)),
       List.replicate 400 ((5 : Int), (3 : Int))] = 106 := by
    simp only [min_isc_adc_after_sweeps, List.foldl, min_isc_adc_after_sweep]
    rw [voc_rep_53_floor]
    decide
  have h2 : MIN_ISC_ADC + adc_noise_floor_of (List.replicate 400 ((5 : Int), (3 : Int)))
      = 103 := by
    rw [voc_rep_53_floor]
    decide
  refine ⟨h1, h2, ?_⟩
  rw [h1, h2]
  decide

/-- Claim C8: FALSE of the code.  The frequency-table scan bound at line
478 is `sizeof(adc_ch0_vals)` = 550 (bytes, not elements), so a Voc
polling window of exactly VOC_POLLING_LOOPS readings containing 276
distinct CH0 values makes the table write at slot 275, which is not
below MAX_IV_POINTS = 275: the counter writes outside the two retained
arrays it reuses. -/
theorem claim_C8 :
    (((List.range 276).map (fun (k : Nat) => (((k : Int) + 1), (0 : Int)))) ++
        List.replicate 124 ((1 : Int), (0 : Int))).length = VOC_POLLING_LOOPS ∧
    275 ∈ (voc_poll_loop
        (((List.range 276).map (fun (k : Nat) => (((k : Int) + 1), (0 : Int)))) ++
          List.replicate 124 ((1 : Int), (0 : Int))) voc_poll_init).table_writes ∧
    ¬ (275 < MAX_IV_POINTS) := by
  refine ⟨?_, ?_, by decide⟩
  · simp only [List.length_append, List.length_map, List.length_range, List.length_replicate]
    decide
  · rw [voc_poll_loop_append]
    apply voc_poll_loop_writes_mono
    have h := (voc_poll_distinct 276 (by norm_num)).2.2 (by norm_num)
    have h276 : (276 : Nat) - 1 = 275 := by norm_num
    rw [h276] at h
    exact h

end IVSwinger2
